import Mathlib

/-!
A verification development for the mysqldump ingestion and schema/data
conversion engine of the spanner-migration-tool repository. The Go
functions of `sources/mysql/mysqldump.go` and `import_data/utils.go` are
embedded as executable Lean definitions: Go maps become association
lists, Go strings are manipulated through their character lists, and the
external pingcap SQL statement parser (a supplied capability) becomes a
function parameter. Components that the sources reference but do not
define (the `internal` conversion context helpers, the batched writer,
and the schema-to-Spanner converter) are modelled from the design
document and marked as such in their doc comments.
-/

namespace SpannerMigration

/-- Characters of a string; Go `strings` functions are embedded through it. -/
def chars (s : String) : List Char := s.data

/-- A string from characters. -/
def ofChars (l : List Char) : String := ⟨l⟩

/-- Embeds Go `strings.Contains(s, sep)` for a one-character separator. -/
def strContainsChar (s : String) (c : Char) : Bool := (chars s).contains c

/-- Characters strictly before the first occurrence of `c` (the whole
list when `c` is absent); embeds Go `strings.Split(s, sep)[0]` for a
one-character separator. -/
def takeBeforeChar (c : Char) : List Char → List Char
  | [] => []
  | x :: xs => if x = c then [] else x :: takeBeforeChar c xs

/-- Embeds Go `strings.Split` for a one-character separator: the result
is never empty, and splitting the empty string yields one empty piece. -/
def splitOnChar (c : Char) : List Char → List (List Char)
  | [] => [[]]
  | x :: xs =>
    match splitOnChar c xs with
    | [] => [[x]]
    | h :: t => if x = c then [] :: h :: t else (x :: h) :: t

/-- Embeds Go `strings.HasSuffix`. -/
def hasSuffix (s suffix : String) : Bool := (chars suffix).isSuffixOf (chars s)

/-- Embeds Go `strings.TrimSuffix(s, suffix)`. -/
def trimSuffix (s suffix : String) : String :=
  if hasSuffix s suffix then
    ofChars ((chars s).take ((chars s).length - (chars suffix).length))
  else s

/-- One-pass implementation of the Go regular expression `\((.*?)\)`
(`valuesRegexp` in mysqldump.go) over a character stream. The
accumulator holds the (reversed) characters seen since an opening
parenthesis that may still start a match. The returned list holds the
contents between the parentheses of each leftmost-shortest match. `.`
does not cross a newline; an opening parenthesis with no closing one
before the next newline cannot start a match, and neither can any
opening parenthesis between it and that newline (the blocking newline
is shared), so scanning resumes after the newline. -/
def parenGroupsAux : Option (List Char) → List Char → List (List Char)
  | none, [] => []
  | none, c :: cs =>
    if c = '(' then parenGroupsAux (some []) cs else parenGroupsAux none cs
  | some _, [] => []
  | some acc, c :: cs =>
    if c = ')' then acc.reverse :: parenGroupsAux none cs
    else if c = '\n' then parenGroupsAux none cs
    else parenGroupsAux (some (c :: acc)) cs

/-- Inner contents (without the parentheses) of every match of
`valuesRegexp` in order; `valuesRegexp.FindAllString` returns the same
matches with their parentheses. -/
def valuesRegexpInners (s : String) : List String :=
  (parenGroupsAux none (chars s)).map ofChars

/-- Embeds Go `valuesRegexp.FindAllString(chunk, -1)`: each match kept
with its surrounding parentheses. -/
def valuesRegexpFindAll (s : String) : List String :=
  (valuesRegexpInners s).map (fun mid => "(" ++ mid ++ ")")

/-- Embeds Go `valuesRegexp.FindString`: the first match (with its
parentheses), or the empty string when there is none. -/
def valuesRegexpFindString (s : String) : String :=
  ((valuesRegexpFindAll s).head?).getD ""

/-- Decimal digit value. -/
def digitVal (c : Char) : Option Nat :=
  if '0' ≤ c ∧ c ≤ '9' then some (c.toNat - 48) else none

/-- Unsigned decimal digits to a natural number; `none` when the list is
empty or holds a non-digit. -/
def parseDigits : List Char → Option Nat
  | [] => none
  | cs => cs.foldl (fun acc c => acc.bind fun n => (digitVal c).map (fun d => n * 10 + d)) (some 0)

/-- Embeds Go `strconv.ParseInt(s, 10, 64)`: optional sign, at least one
digit, nothing else, and the value must fit in a signed 64-bit integer
(values are kept as unbounded `Int` once in range). -/
def parseInt64 (s : String) : Option Int :=
  match chars s with
  | '+' :: cs => (parseDigits cs).bind (fun n => if n ≤ 2 ^ 63 - 1 then some (n : Int) else none)
  | '-' :: cs => (parseDigits cs).bind (fun n => if n ≤ 2 ^ 63 then some (-(n : Int)) else none)
  | cs => (parseDigits cs).bind (fun n => if n ≤ 2 ^ 63 - 1 then some (n : Int) else none)

/-- Association-list lookup, embedding a Go map read with an `ok` flag. -/
def alistGet {α : Type} (m : List (String × α)) (k : String) : Option α :=
  match m.find? (fun p => p.1 == k) with
  | some p => some p.2
  | none => none

/-- Association-list lookup with a default, embedding a Go map read that
yields the zero value when the key is absent. -/
def alistGetD {α : Type} (m : List (String × α)) (k : String) (d : α) : α :=
  (alistGet m k).getD d

/-- Association-list update, embedding a Go map write. -/
def alistInsert {α : Type} (m : List (String × α)) (k : String) (v : α) : List (String × α) :=
  match m with
  | [] => [(k, v)]
  | p :: ps => if p.1 == k then (k, v) :: ps else p :: alistInsert ps k v

/-- Bump a counter map entry by `d`, embedding `m[k] += d` on a Go map
of integers. -/
def alistBump (m : List (String × Nat)) (k : String) (d : Nat) : List (String × Nat) :=
  alistInsert m k (alistGetD m k 0 + d)

/-! ## The source schema data model (package `schema`)

The `schema` package itself is not among the sources; the field sets
below are exactly those its consumers in `sources/mysql/mysqldump.go`
and the literals in `sources/common/toddl_test.go` use. -/

/-- `schema.Key`: one primary-key or index key column. -/
structure Key where
  colId : String := ""
  desc : Bool := false
  order : Int := 0
deriving DecidableEq, Repr

/-- `schema.ForeignKey`. -/
structure ForeignKey where
  name : String := ""
  colIds : List String := []
  columnNames : List String := []
  referTableId : String := ""
  referTableName : String := ""
  referColumnIds : List String := []
  referColumnNames : List String := []
  onDelete : String := ""
  onUpdate : String := ""
  id : String := ""
deriving DecidableEq, Repr

/-- `schema.Index`. -/
structure Index where
  name : String := ""
  unique : Bool := false
  keys : List Key := []
  id : String := ""
  storedColumnIds : List String := []
deriving DecidableEq, Repr

/-- `schema.Type`: a source column type. -/
structure SchemaType where
  name : String := ""
  mods : List Int := []
  arrayBounds : List Int := []
deriving DecidableEq, Repr

/-- `schema.Ignored`: per-column features seen but not convertible. -/
structure Ignored where
  check : Bool := false
  autoIncrement : Bool := false
  defaultVal : Bool := false
deriving DecidableEq, Repr

/-- `schema.Column`. -/
structure Column where
  name : String := ""
  type : SchemaType := {}
  notNull : Bool := false
  ignored : Ignored := {}
  id : String := ""
deriving DecidableEq, Repr

/-- `schema.CheckConstraint`. -/
structure CheckConstraint where
  name : String := ""
  expr : String := ""
  exprId : String := ""
  id : String := ""
deriving DecidableEq, Repr

/-- `schema.Table`; Go maps become association lists. -/
structure Table where
  id : String := ""
  name : String := ""
  colIds : List String := []
  colNameIdMap : List (String × String) := []
  colDefs : List (String × Column) := []
  primaryKeys : List Key := []
  foreignKeys : List ForeignKey := []
  indexes : List Index := []
  checkConstraints : List CheckConstraint := []
deriving DecidableEq, Repr

/-! ## The target (Spanner) schema data model (package `ddl`)

The `ddl` package is likewise not among the sources; field sets are the
ones used by the tests in the sources (`infoschema_test.go`,
`toddl_test.go`). -/

/-- `ddl.IndexKey`. -/
structure SpIndexKey where
  colId : String := ""
  desc : Bool := false
  order : Int := 0
deriving DecidableEq, Repr

/-- `ddl.ColumnDef` (type collapsed to its name and length). -/
structure SpColumnDef where
  name : String := ""
  id : String := ""
  tyName : String := ""
  tyLen : Int := 0
  notNull : Bool := false
deriving DecidableEq, Repr

/-- `ddl.CreateTable`. -/
structure SpTable where
  name : String := ""
  colIds : List String := []
  colDefs : List (String × SpColumnDef) := []
  primaryKeys : List SpIndexKey := []
  id : String := ""
  parentTableId : String := ""
deriving DecidableEq, Repr

/-- `ddl.CreateIndex`. -/
structure SpIndex where
  name : String := ""
  tableId : String := ""
  unique : Bool := false
  keys : List SpIndexKey := []
  id : String := ""
  storedColumnIds : List String := []
deriving DecidableEq, Repr

/-! ## The conversion context (package `internal`)

`internal.Conv` and its statistics helpers are not among the sources;
they are modelled from the design document: the context owns the schema
maps, the running statistics (rows seen/skipped, reparse count,
unexpected-condition log), the mode flag and the data-sink records. -/

/-- Per-statement-kind counters of `internal.Conv.Stats.Statement`. -/
structure StatementStat where
  schemaCount : Nat := 0
  dataCount : Nat := 0
  skipCount : Nat := 0
  errorCount : Nat := 0
deriving DecidableEq, Repr

/-- `internal.Conv.Stats`; the unexpected-condition log keeps the
messages in order (Go keeps a message-to-count map). -/
structure Stats where
  rows : List (String × Nat) := []
  goodRows : List (String × Nat) := []
  badRows : List (String × Nat) := []
  statement : List (String × StatementStat) := []
  unexpecteds : List String := []
  reparsed : Nat := 0
deriving DecidableEq, Repr

/-- One record handed to the data sink: table id, column ids, values. -/
structure WrittenRow where
  table : String := ""
  cols : List String := []
  vals : List String := []
deriving DecidableEq, Repr

/-- Modelled from the spec: the conversion context (`internal.Conv`)
threaded through every stage. `written` records the rows handed to the
data sink; `idCounter` backs the process-unique stable id generators of
the `internal` package. -/
structure Conv where
  srcSchema : List (String × Table) := []
  spSchema : List (String × SpTable) := []
  schemaMode : Bool := true
  timezoneOffset : String := ""
  stats : Stats := {}
  sampleBadRows : List WrittenRow := []
  written : List WrittenRow := []
  idCounter : Nat := 0
deriving DecidableEq, Repr

/-- Modelled from the spec: `internal.Conv.Unexpected` records an
unexpected condition in the statistics. -/
def Conv.unexpectedLog (conv : Conv) (msg : String) : Conv :=
  { conv with stats := { conv.stats with unexpecteds := conv.stats.unexpecteds ++ [msg] } }

/-- Update the counters of one statement kind. -/
def Conv.bumpStatement (conv : Conv) (k : String) (f : StatementStat → StatementStat) : Conv :=
  { conv with stats := { conv.stats with
      statement := alistInsert conv.stats.statement k (f (alistGetD conv.stats.statement k {})) } }

/-- Modelled from the spec: `internal.Conv.SkipStatement`. -/
def Conv.skipStatement (conv : Conv) (k : String) : Conv :=
  conv.bumpStatement k (fun s => { s with skipCount := s.skipCount + 1 })

/-- Modelled from the spec: `internal.Conv.SchemaStatement`. -/
def Conv.schemaStatement (conv : Conv) (k : String) : Conv :=
  conv.bumpStatement k (fun s => { s with schemaCount := s.schemaCount + 1 })

/-- Modelled from the spec: `internal.Conv.DataStatement`. -/
def Conv.dataStatement (conv : Conv) (k : String) : Conv :=
  conv.bumpStatement k (fun s => { s with dataCount := s.dataCount + 1 })

/-- Modelled from the spec: `internal.Conv.ErrorInStatement`. -/
def Conv.errorInStatement (conv : Conv) (k : String) : Conv :=
  conv.bumpStatement k (fun s => { s with errorCount := s.errorCount + 1 })

/-- Modelled from the spec: `internal.Conv.StatsAddBadRow` counts a bad
row for the table when in data mode. -/
def Conv.statsAddBadRow (conv : Conv) (srcTable : String) (dataMode : Bool) : Conv :=
  if dataMode then
    { conv with stats := { conv.stats with badRows := alistBump conv.stats.badRows srcTable 1 } }
  else conv

/-- Modelled from the spec: `internal.Conv.CollectBadRow` samples a bad
row (the Go bound on the sample count is not modelled). -/
def Conv.collectBadRow (conv : Conv) (srcTable : String) (cols vals : List String) : Conv :=
  { conv with sampleBadRows := conv.sampleBadRows ++ [{ table := srcTable, cols := cols, vals := vals }] }

/-- Modelled from the spec: the process-unique stable id generators of
the `internal` package (`GenerateTableId`, `GenerateColumnId`, ...),
backed by the context counter. -/
def Conv.genId (conv : Conv) (pfx : String) : Conv × String :=
  ({ conv with idCounter := conv.idCounter + 1 }, pfx ++ toString conv.idCounter)

/-- `conv.SchemaMode()`. -/
def Conv.schemaModeB (conv : Conv) : Bool := conv.schemaMode

/-- `conv.DataMode()`. -/
def Conv.dataModeB (conv : Conv) : Bool := !conv.schemaMode

/-! ## The parsed statement model (pingcap `ast` package)

The external SQL parser is a supplied capability; its AST is embedded
with exactly the fields `mysqldump.go` reads. Name renderings
(`OrigColName`, `String()`) are collapsed to plain strings, and nil
pointers become `Option`. -/

/-- `ast.TableName`: schema qualifier and table name. -/
structure TableNameAst where
  schemaName : String := ""
  name : String := ""
deriving DecidableEq, Repr

/-- `ast.ReferenceDef`: referenced table, referenced column names, and
the rendered `ReferOpt` action strings (empty when the `ON DELETE` /
`ON UPDATE` clause is absent). -/
structure ReferenceDefAst where
  table : TableNameAst := {}
  indexPartSpecifications : List String := []
  onDelete : String := ""
  onUpdate : String := ""
deriving DecidableEq, Repr

/-- `ast.ConstraintType`, restricted to the cases the switch in
`processConstraint` distinguishes; every other value is `other`. -/
inductive ConstraintTp
  | primaryKey
  | foreignKey
  | index
  | uniq
  | check
  | other
deriving DecidableEq, Repr

/-- `ast.Constraint`: keys are the rendered key-column names, `exprStr`
is what `expressionToString` renders for `constraint.Expr` (the AST
restore is an external capability). -/
structure ConstraintAst where
  tp : ConstraintTp := .other
  name : String := ""
  keys : List String := []
  refer : ReferenceDefAst := {}
  exprStr : String := ""
deriving DecidableEq, Repr

/-- `ast.ColumnOptionType`, restricted to the cases
`updateColsByOption` distinguishes. -/
inductive ColumnOptionTp
  | primaryKey
  | notNull
  | autoIncrement
  | defaultValue
  | uniqKey
  | check
  | reference
  | other
deriving DecidableEq, Repr

/-- One `ast.ColumnOption`; for a default value `exprIsNullValue` tells
whether the expression is a `driver.ValueExpr` holding nil. -/
structure ColumnOptionAst where
  tp : ColumnOptionTp := .other
  exprIsNullValue : Bool := false
  refer : ReferenceDefAst := {}
deriving DecidableEq, Repr

/-- `ast.ColumnDef`: `tp` is the rendering `col.Tp.String()` (`none`
embeds a nil field type), `elems` is `col.Tp.GetElems()`. -/
structure ColumnDefAst where
  name : Option String := none
  tp : Option String := none
  elems : List String := []
  options : List ColumnOptionAst := []
deriving DecidableEq, Repr

/-- One expression of an insert row: a value expression with its
rendering (negation and decimal formatting collapsed into the rendered
string), or a node kind `getVals` rejects. -/
inductive ValueAst
  | val (rendered : String)
  | unsupported (ty : String)
deriving DecidableEq, Repr

/-- `ast.InsertStmt`: the `TableRefs` chain is collapsed to an optional
table name (`none` embeds the nil/ill-typed chains that make
`getTableNameInsert` fail). -/
structure InsertStmtAst where
  table : Option TableNameAst := none
  columns : Option (List String) := none
  lists : Option (List (List ValueAst)) := none
deriving DecidableEq, Repr

/-- `ast.CreateTableStmt`. -/
structure CreateTableStmtAst where
  table : Option TableNameAst := none
  cols : List ColumnDefAst := []
  constraints : List ConstraintAst := []
deriving DecidableEq, Repr

/-- One `ast.AlterTableSpec`, restricted to the cases
`processAlterTable` distinguishes; `modifyColumn` carries
`item.NewColumns[0]`. -/
inductive AlterTableSpecAst
  | addConstraint (c : ConstraintAst)
  | modifyColumn (col : ColumnDefAst)
  | other
deriving DecidableEq, Repr

/-- `ast.AlterTableStmt`. -/
structure AlterTableStmtAst where
  table : Option TableNameAst := none
  specs : List AlterTableSpecAst := []
deriving DecidableEq, Repr

/-- The value of a `SET` variable: a `driver.ValueExpr` (holding an
optional rendered value) or any other expression kind. -/
inductive SetValueAst
  | valueExpr (v : Option String)
  | other
deriving DecidableEq, Repr

/-- One variable assignment of an `ast.SetStmt`. -/
structure SetVariableAst where
  name : String := ""
  value : SetValueAst := .other
deriving DecidableEq, Repr

/-- `ast.SetStmt` (`vars` embeds the Go field `Variables`). -/
structure SetStmtAst where
  vars : List SetVariableAst := []
deriving DecidableEq, Repr

/-- `ast.CreateIndexStmt`; `unique` embeds
`stmt.KeyType == ast.IndexKeyTypeUnique`. -/
structure CreateIndexStmtAst where
  table : Option TableNameAst := none
  indexName : String := ""
  unique : Bool := false
  indexPartSpecifications : List String := []
deriving DecidableEq, Repr

/-- `ast.StmtNode`, restricted to the kinds `processStatement`
distinguishes; `other` carries the node type name. -/
inductive StmtAst
  | createTable (s : CreateTableStmtAst)
  | alterTable (s : AlterTableStmtAst)
  | setStmt (s : SetStmtAst)
  | insert (s : InsertStmtAst)
  | createIndex (s : CreateIndexStmtAst)
  | other (ty : String)
deriving DecidableEq, Repr

/-- `NodeType`: the statement node type name without the `*ast.`
position (mysqldump.go line 905). -/
def nodeTypeName : StmtAst → String
  | .createTable _ => "CreateTableStmt"
  | .alterTable _ => "AlterTableStmt"
  | .setStmt _ => "SetStmt"
  | .insert _ => "InsertStmt"
  | .createIndex _ => "CreateIndexStmt"
  | .other ty => ty

/-! ## The collation-prefix regular expression

`dbcollationRegex = _[_A-Za-z0-9]+('([^']*)')` with replacement `$1`
(mysqldump.go:40, used on restored check-constraint expressions). -/

/-- The apostrophe character. -/
def squote : Char := Char.ofNat 39

/-- Membership in the character class `[_A-Za-z0-9]`. -/
def isWordChar (c : Char) : Bool :=
  c = '_' ∨ ('A' ≤ c ∧ c ≤ 'Z') ∨ ('a' ≤ c ∧ c ≤ 'z') ∨ ('0' ≤ c ∧ c ≤ '9')

/-- Maximal run of `[_A-Za-z0-9]` characters and the remainder. -/
def takeRun : List Char → List Char × List Char
  | [] => ([], [])
  | c :: cs =>
    if isWordChar c then
      let p := takeRun cs
      (c :: p.1, p.2)
    else ([], c :: cs)

/-- Content of a quoted literal up to (excluding) the next apostrophe,
with the remainder after it; `none` when no apostrophe closes it. -/
def scanQuote : List Char → Option (List Char × List Char)
  | [] => none
  | c :: cs =>
    if c = squote then some ([], cs)
    else
      match scanQuote cs with
      | some p => some (c :: p.1, p.2)
      | none => none

/-- One attempted match of `dbcollationRegex` right after a `_`: a
non-empty word-character run immediately followed by a quoted literal.
Returns the literal with its quotes (the `$1` replacement) and the
remainder. The character class excludes the quote, so the maximal run
is the only candidate the regex engine can accept. -/
def matchColl (cs : List Char) : Option (List Char × List Char) :=
  match takeRun cs with
  | ([], _) => none
  | (_ :: _, []) => none
  | (_ :: _, q :: rest2) =>
    if q = squote then
      match scanQuote rest2 with
      | some (content, rest3) => some (squote :: (content ++ [squote]), rest3)
      | none => none
    else none

/-- Embeds `dbcollationRegex.ReplaceAllString(exp, "$1")`: every
collation-prefixed quoted literal such as `_utf8mb4` followed by a
quoted value is replaced by the bare quoted value. The fuel argument
(instantiated with the input length) only serves termination: every
recursive call consumes at least one input character. -/
def collStripAux : Nat → List Char → List Char
  | 0, l => l
  | _ + 1, [] => []
  | fuel + 1, c :: cs =>
    if c = '_' then
      match matchColl cs with
      | some (q, rest) => q ++ collStripAux fuel rest
      | none => c :: collStripAux fuel cs
    else c :: collStripAux fuel cs

/-- `dbcollationRegex.ReplaceAllString(exp, "$1")` on a string. -/
def dbcollationStrip (s : String) : String :=
  ofChars (collStripAux (chars s).length (chars s))

/-! ## mysqldump.go: schema-building helpers -/

/-- `getTableName` (mysqldump.go:504): nil components are dropped, the
components are joined with `.`, and an empty table name is an error. -/
def getTableName (table : TableNameAst) : Except String String :=
  if table.name = "" then .error "tablename is empty: cant build table name"
  else if table.schemaName ≠ "" then .ok (table.schemaName ++ "." ++ table.name)
  else .ok table.name

/-- `logStmtError` (mysqldump.go:891): records the statement error as
an unexpected condition and in the statement error counter. -/
def logStmtError (conv : Conv) (stmtTy : String) (err : String) : Conv :=
  (conv.unexpectedLog ("Processing " ++ stmtTy ++ " statement: " ++ err)).errorInStatement stmtTy

/-- `toSchemaKeys` (mysqldump.go:374): key-column names resolved
through the name-to-id map, unknown names dropped; all keys come out
ascending (the parser does not carry the order). -/
def toSchemaKeys (columns : List String) (colNameToIdMap : List (String × String)) : List Key :=
  columns.filterMap (fun specColName =>
    (alistGet colNameToIdMap specColName).map (fun colId => ({ colId := colId } : Key)))

/-- `checkEmpty` (mysqldump.go:898): warns (as an unexpected condition)
when a primary key is about to be overwritten. -/
def checkEmpty (conv : Conv) (pkeys : List Key) (stmtType : String) : Conv :=
  if pkeys.length ≠ 0 then
    conv.unexpectedLog
      ("Multiple primary keys found. `" ++ stmtType ++ "` statement is overwriting primary key")
  else conv

/-- `constants.FK_NO_ACTION` (the `constants` package is not among the
sources; the value is the referential action name used by the claim and
the design document). -/
def FK_NO_ACTION : String := "NO ACTION"

/-- `toForeignKeys` (mysqldump.go:386): local and referenced column
names taken index-aligned (Go would panic when the referenced list is
shorter, so the lists are zipped); an absent `ON DELETE`/`ON UPDATE`
action (empty string) defaults to `NO ACTION`; a failing referenced
table name logs an unexpected condition and yields the zero foreign
key. -/
def toForeignKeys (conv : Conv) (fk : ConstraintAst) : Conv × ForeignKey :=
  match getTableName fk.refer.table with
  | .error e => (conv.unexpectedLog e, {})
  | .ok referTable =>
    let pairs := fk.keys.zip fk.refer.indexPartSpecifications
    let colNames := pairs.map (·.1)
    let referColNames := pairs.map (·.2)
    let onDelete := fk.refer.onDelete
    let onUpdate := fk.refer.onUpdate
    let onDelete := if onDelete = "" then FK_NO_ACTION else onDelete
    let onUpdate := if onUpdate = "" then FK_NO_ACTION else onUpdate
    let (conv, fid) := conv.genId "f"
    (conv,
      { id := fid, name := fk.name, columnNames := colNames,
        referTableName := referTable, referColumnNames := referColNames,
        onDelete := onDelete, onUpdate := onUpdate })

/-- One step of `updateCols` (mysqldump.go:421): resolve the column
name (an absent name resolves to the empty id and updates the zero
column under it, as the Go map reads do), set the flag for the
constraint type, and write back. -/
def updateColsStep (ct : ConstraintTp) (colMap : List (String × String))
    (colDef : List (String × Column)) (colName : String) : List (String × Column) :=
  let cid := alistGetD colMap colName ""
  let cd := alistGetD colDef cid {}
  let cd :=
    match ct with
    | .check => { cd with ignored := { cd.ignored with check := true } }
    | .primaryKey => { cd with notNull := true }
    | _ => cd
  alistInsert colDef cid cd

/-- `updateCols` (mysqldump.go:421). -/
def updateCols (ct : ConstraintTp) (colNames : List String)
    (colDef : List (String × Column)) (colMap : List (String × String)) : List (String × Column) :=
  colNames.foldl (updateColsStep ct colMap) colDef

/-- `processConstraint` (mysqldump.go:308): a table-level primary key
replaces any previous one (with `checkEmpty`'s warning) and marks its
columns `NOT NULL`; foreign keys, indexes and unique constraints are
appended; every other constraint type goes through `updateCols`. -/
def processConstraint (conv : Conv) (tableId : String) (constraint : ConstraintAst)
    (stmtType : String) (colNameToIdMap : List (String × String)) : Conv :=
  let st := alistGetD conv.srcSchema tableId {}
  match constraint.tp with
  | .primaryKey =>
    let conv := checkEmpty conv st.primaryKeys stmtType
    let st := { st with primaryKeys := toSchemaKeys constraint.keys colNameToIdMap }
    let st := { st with colDefs := updateCols .primaryKey constraint.keys st.colDefs colNameToIdMap }
    { conv with srcSchema := alistInsert conv.srcSchema tableId st }
  | .foreignKey =>
    let (conv, fkey) := toForeignKeys conv constraint
    let st := { st with foreignKeys := st.foreignKeys ++ [fkey] }
    { conv with srcSchema := alistInsert conv.srcSchema tableId st }
  | .index =>
    let (conv, idxId) := conv.genId "i"
    let st := { st with indexes := st.indexes ++
        [{ name := constraint.name, id := idxId, keys := toSchemaKeys constraint.keys colNameToIdMap }] }
    { conv with srcSchema := alistInsert conv.srcSchema tableId st }
  | .uniq =>
    let (conv, idxId) := conv.genId "i"
    let st := { st with indexes := st.indexes ++
        [{ name := constraint.name, id := idxId, unique := true,
           keys := toSchemaKeys constraint.keys colNameToIdMap }] }
    { conv with srcSchema := alistInsert conv.srcSchema tableId st }
  | _ =>
    let st := { st with colDefs := updateCols constraint.tp constraint.keys st.colDefs colNameToIdMap }
    { conv with srcSchema := alistInsert conv.srcSchema tableId st }

/-- Modelled from the spec: `checkAndAddParentheses` (not among the
sources) parenthesizes the captured check expression when it is not
already parenthesized. -/
def checkAndAddParentheses (exp : String) : String :=
  if (chars exp).head? = some '(' ∧ (chars exp).getLast? = some ')' then exp
  else "(" ++ exp ++ ")"

/-- `getCheckConstraints` (mysqldump.go:337): check constraints with
the restored expression, collation prefixes stripped and parentheses
ensured; expression and constraint ids come from the modelled id
generators. -/
def getCheckConstraints (conv : Conv) (constraints : List ConstraintAst) :
    Conv × List CheckConstraint :=
  constraints.foldl
    (fun (acc : Conv × List CheckConstraint) constraint =>
      if constraint.tp = .check then
        let exp := constraint.exprStr
        let exp := dbcollationStrip exp
        let exp := checkAndAddParentheses exp
        let (conv, exprId) := acc.1.genId "expr"
        let (conv, ckId) := conv.genId "ck"
        (conv, acc.2 ++ [{ name := constraint.name, expr := exp, exprId := exprId, id := ckId }])
      else acc)
    (conv, [])

/-- All-or-nothing parse of the modifier texts: the Go loop appends
parsed values and discards everything on the first failure. -/
def parseModsAll : List String → Option (List Int)
  | [] => some []
  | s :: rest =>
    match parseInt64 s with
    | none => none
    | some j => (parseModsAll rest).map (fun ms => j :: ms)

/-- `getTypeModsAndID` (mysqldump.go:593): the id is the text before
the first parenthesis; `set`/`enum` return early with no modifiers; the
modifiers are the comma-separated integers of the first parenthesized
group (an unparsable modifier logs an unexpected condition and drops
all modifiers); an id still containing a space gets the `BINARY`
keyword suffix trimmed from the whole type text. -/
def getTypeModsAndID (conv : Conv) (columnType : String) : Conv × String × List Int :=
  if strContainsChar columnType '(' then
    let id := ofChars (takeBeforeChar '(' (chars columnType))
    if id = "set" ∨ id = "enum" then (conv, id, [])
    else
      let values := valuesRegexpFindString columnType
      let inner := ofChars (((chars values).drop 1).take ((chars values).length - 2))
      let strMods := (splitOnChar ',' (chars inner)).map ofChars
      match parseModsAll strMods with
      | none =>
        (conv.unexpectedLog ("Unable to get modifiers for `" ++ id ++ "` datatype."), id, [])
      | some mods =>
        let id := if strContainsChar id ' ' then trimSuffix columnType " BINARY" else id
        (conv, id, mods)
  else
    let id := columnType
    let id := if strContainsChar id ' ' then trimSuffix columnType " BINARY" else id
    (conv, id, [])

/-- `getArrayBounds` (mysqldump.go:747): only the `set` data type gets
an array bound, the member count. -/
def getArrayBounds (ft : String) (elem : List String) : List Int :=
  if (chars "set").isPrefixOf (chars ft) then [(elem.length : Int)] else []

/-- The column-level constraint summary (`columnConstraint`,
mysqldump.go:534). -/
structure ColumnConstraint where
  isPk : Bool := false
  isUniqueKey : Bool := false
  fk : ForeignKey := {}
deriving DecidableEq, Repr

/-- `updateColsByOption` (mysqldump.go:542): folds the column option
clauses into the column flags and the constraint summary; an inline
`REFERENCES` option builds an unnamed foreign key whose action strings
are taken verbatim (no defaulting); a failing referenced table name
logs an unexpected condition and skips the option. -/
def updateColsByOption (conv : Conv) (_tableName : String) (col : ColumnDefAst)
    (column : Column) : Conv × Column × ColumnConstraint :=
  col.options.foldl
    (fun (st : Conv × Column × ColumnConstraint) elem =>
      let (conv, column, cc) := st
      match elem.tp with
      | .primaryKey => (conv, { column with notNull := true }, { cc with isPk := true })
      | .notNull => (conv, { column with notNull := true }, cc)
      | .autoIncrement =>
        (conv, { column with ignored := { column.ignored with autoIncrement := true } }, cc)
      | .defaultValue =>
        if elem.exprIsNullValue then (conv, column, cc)
        else (conv, { column with ignored := { column.ignored with defaultVal := true } }, cc)
      | .uniqKey => (conv, column, { cc with isUniqueKey := true })
      | .check => (conv, { column with ignored := { column.ignored with check := true } }, cc)
      | .reference =>
        let colName := col.name.getD ""
        match getTableName elem.refer.table with
        | .error e => (conv.unexpectedLog e, column, cc)
        | .ok referTable =>
          let referColumn := elem.refer.indexPartSpecifications.headD ""
          let fkey : ForeignKey :=
            { columnNames := [colName], referTableName := referTable,
              referColumnNames := [referColumn],
              onDelete := elem.refer.onDelete, onUpdate := elem.refer.onUpdate }
          (conv, column, { cc with fk := fkey })
      | .other => (conv, column, cc))
    (conv, column, ({} : ColumnConstraint))

/-- `processColumn` (mysqldump.go:517): nil name or nil type is an
error; otherwise the declared type text is split into id, modifiers and
array bounds and the option clauses are folded in. -/
def processColumn (conv : Conv) (tableName : String) (col : ColumnDefAst) :
    Conv × Except String (String × Column × ColumnConstraint) :=
  match col.name with
  | none => (conv, .error "column name is nil")
  | some nm =>
    match col.tp with
    | none => (conv, .error ("cant get column type for " ++ nm ++ ": found nil ColumnDef type"))
    | some tpStr =>
      let (conv, tid, mods) := getTypeModsAndID conv tpStr
      let ty : SchemaType :=
        { name := tid, mods := mods, arrayBounds := getArrayBounds tpStr col.elems }
      let column : Column := { name := nm, type := ty }
      let (conv, column, cc) := updateColsByOption conv tableName col column
      (conv, .ok (nm, column, cc))

/-- The accumulator of the column loop of `processCreateTable`
(the local variables `colIds`, `colDef`, `colNameIdMap`, `keys`,
`fkeys`, `index` of mysqldump.go:246-251). -/
structure CreateTableAcc where
  colIds : List String := []
  colDefs : List (String × Column) := []
  colNameIdMap : List (String × String) := []
  keys : List Key := []
  fkeys : List ForeignKey := []
  index : List Index := []
deriving DecidableEq, Repr

/-- The column loop of `processCreateTable` (mysqldump.go:255-290): per
column assign a fresh id, collect the definition, record a column-level
primary key, foreign key, or unique-index translation; a failing column
aborts the whole statement. -/
def processCreateTableCols (tableName : String) :
    List ColumnDefAst → Conv → CreateTableAcc → Conv × Except String CreateTableAcc
  | [], conv, acc => (conv, .ok acc)
  | element :: rest, conv, acc =>
    match processColumn conv tableName element with
    | (conv, .error e) => (conv, .error e)
    | (conv, .ok (_, col, constraint)) =>
      let (conv, cid) := conv.genId "c"
      let col := { col with id := cid }
      let acc := { acc with
        colDefs := alistInsert acc.colDefs cid col,
        colIds := acc.colIds ++ [cid],
        colNameIdMap := alistInsert acc.colNameIdMap col.name cid }
      let acc := if constraint.isPk then { acc with keys := acc.keys ++ [{ colId := cid }] } else acc
      let acc :=
        if constraint.fk.columnNames ≠ [] then { acc with fkeys := acc.fkeys ++ [constraint.fk] }
        else acc
      if constraint.isUniqueKey then
        let (conv, idxId) := conv.genId "i"
        processCreateTableCols tableName rest conv
          { acc with index := acc.index ++
              [{ name := "", id := idxId, unique := true, keys := [{ colId := cid, desc := false }] }] }
      else processCreateTableCols tableName rest conv acc

/-- `processCreateTable` (mysqldump.go:232). -/
def processCreateTable (conv : Conv) (stmt : CreateTableStmtAst) : Conv :=
  match stmt.table with
  | none => logStmtError conv "CreateTableStmt" "table is nil"
  | some t =>
    let (conv, tableId) := conv.genId "t"
    match getTableName t with
    | .error e => logStmtError conv "CreateTableStmt" ("cant get table name: " ++ e)
    | .ok tableName =>
      let (conv, checkConstraints) := getCheckConstraints conv stmt.constraints
      match processCreateTableCols tableName stmt.cols conv {} with
      | (conv, .error e) => logStmtError conv "CreateTableStmt" e
      | (conv, .ok acc) =>
        let conv := conv.schemaStatement "CreateTableStmt"
        let newTable : Table :=
          { id := tableId, name := tableName, colIds := acc.colIds,
            colNameIdMap := acc.colNameIdMap, colDefs := acc.colDefs,
            primaryKeys := acc.keys, foreignKeys := acc.fkeys,
            indexes := acc.index, checkConstraints := checkConstraints }
        let conv := { conv with srcSchema := alistInsert conv.srcSchema tableId newTable }
        stmt.constraints.foldl
          (fun conv constraint =>
            processConstraint conv tableId constraint "CREATE TABLE"
              (alistGetD conv.srcSchema tableId {}).colNameIdMap)
          conv

/-- Modelled from the spec: `internal.GetSrcTableByName` finds the
source table with the given name. -/
def getSrcTableByName (srcSchema : List (String × Table)) (name : String) : Option Table :=
  (srcSchema.find? (fun p => p.2.name == name)).map (·.2)

/-- The spec loop of `processAlterTable` (mysqldump.go:448-483); a
failing column in a modify-column spec aborts the remaining specs
(the Go `return`). `tbl` is the table as resolved before the loop; the
current table state is re-read from the context where the Go code
does. -/
def processAlterTableSpecs (tbl : Table) (tableName : String) :
    List AlterTableSpecAst → Conv → Conv
  | [], conv => conv
  | item :: rest, conv =>
    match item with
    | .addConstraint c =>
      let conv := processConstraint conv tbl.id c "ALTER TABLE" tbl.colNameIdMap
      processAlterTableSpecs tbl tableName rest (conv.schemaStatement "AlterTableStmt")
    | .modifyColumn colAst =>
      match processColumn conv tableName colAst with
      | (conv, .error e) => logStmtError conv "AlterTableStmt" e
      | (conv, .ok (colname, col, constraint)) =>
        let cid := alistGetD tbl.colNameIdMap colname ""
        let col := { col with id := cid }
        let ct := alistGetD conv.srcSchema tbl.id {}
        let ct := { ct with colDefs := alistInsert ct.colDefs cid col }
        let conv := { conv with srcSchema := alistInsert conv.srcSchema tbl.id ct }
        let conv :=
          if constraint.isPk then
            let ctable := alistGetD conv.srcSchema tbl.id {}
            let conv := checkEmpty conv ctable.primaryKeys "ALTER TABLE"
            let ctable := { ctable with primaryKeys := [{ colId := cid }] }
            { conv with srcSchema := alistInsert conv.srcSchema tbl.id ctable }
          else conv
        let conv :=
          if constraint.fk.colIds ≠ [] then
            let ctable := alistGetD conv.srcSchema tbl.id {}
            let ctable := { ctable with foreignKeys := ctable.foreignKeys ++ [constraint.fk] }
            { conv with srcSchema := alistInsert conv.srcSchema tbl.id ctable }
          else conv
        let conv :=
          if constraint.isUniqueKey then
            let ctable := alistGetD conv.srcSchema tbl.id {}
            let ctable := { ctable with indexes := ctable.indexes ++
                [{ name := "", unique := true, keys := [{ colId := colname, desc := false }] }] }
            { conv with srcSchema := alistInsert conv.srcSchema tbl.id ctable }
          else conv
        processAlterTableSpecs tbl tableName rest (conv.schemaStatement "AlterTableStmt")
    | .other => processAlterTableSpecs tbl tableName rest (conv.skipStatement "AlterTableStmt")

/-- `processAlterTable` (mysqldump.go:436). -/
def processAlterTable (conv : Conv) (stmt : AlterTableStmtAst) : Conv :=
  match stmt.table with
  | none => logStmtError conv "AlterTableStmt" "table is nil"
  | some t =>
    match getTableName t with
    | .error e => logStmtError conv "AlterTableStmt" ("cant get table name: " ++ e)
    | .ok tableName =>
      match getSrcTableByName conv.srcSchema tableName with
      | some tbl => processAlterTableSpecs tbl tableName stmt.specs conv
      | none => conv.skipStatement "AlterTableStmt"

/-- The variable loop of `processSetStmt` (mysqldump.go:209-228): a
`TIME_ZONE` value expression holding nil is a statement error; a value
sets the timezone offset and the loop continues; any other expression
kind is a restore statement and processing returns. -/
def processSetVars : List SetVariableAst → Conv → Conv
  | [], conv => conv
  | v :: rest, conv =>
    if v.name = "TIME_ZONE" then
      match v.value with
      | .valueExpr none => logStmtError conv "SetStmt" "found nil value in SET TIME_ZONE statement"
      | .valueExpr (some value) => processSetVars rest { conv with timezoneOffset := value }
      | .other => conv
    else processSetVars rest conv

/-- `processSetStmt` (mysqldump.go:207). -/
def processSetStmt (conv : Conv) (stmt : SetStmtAst) : Conv :=
  if stmt.vars ≠ [] then processSetVars stmt.vars conv else conv

/-- `processCreateIndex` (mysqldump.go:181): appends the index (fresh
id, keys resolved through the table's name-to-id map) to the resolved
table; an unknown table logs an unexpected condition and skips the
statement. -/
def processCreateIndex (conv : Conv) (stmt : CreateIndexStmtAst) : Conv :=
  match stmt.table with
  | none => logStmtError conv "CreateIndexStmt" "cannot process index statement with nil table"
  | some t =>
    match getTableName t with
    | .error e => logStmtError conv "CreateIndexStmt" ("cant get table name: " ++ e)
    | .ok tableName =>
      match getSrcTableByName conv.srcSchema tableName with
      | some tbl =>
        let (conv, idxId) := conv.genId "i"
        let ctable := alistGetD conv.srcSchema tbl.id {}
        let ctable := { ctable with indexes := ctable.indexes ++
            [{ id := idxId, name := stmt.indexName, unique := stmt.unique,
               keys := toSchemaKeys stmt.indexPartSpecifications tbl.colNameIdMap }] }
        { conv with srcSchema := alistInsert conv.srcSchema tbl.id ctable }
      | none =>
        (conv.unexpectedLog ("Table " ++ tableName ++ " not found while processing index statement")).skipStatement
          "CreateIndexStmt"

/-! ## mysqldump.go: data-side helpers -/

/-- `getCols` (mysqldump.go:820): the listed column names, an error
when the statement lists none. -/
def getCols (stmt : InsertStmtAst) : Except String (List String) :=
  match stmt.columns with
  | none => .error "No columns found in insert statement "
  | some cols => .ok cols

/-- `getVals` (mysqldump.go:831): an empty row is an error; value
expressions contribute their rendering (negation and decimal formatting
collapsed into the carried string); any other node kind is an error. -/
def getVals (row : List ValueAst) : Except String (List String) :=
  if row.length = 0 then .error "Found row with zero length"
  else
    row.foldl
      (fun acc item =>
        match acc, item with
        | .error e, _ => .error e
        | .ok vs, .val s => .ok (vs ++ [s])
        | .ok _, .unsupported ty => .error ("unexpected value node " ++ ty))
      (.ok [])

/-- Modelled from the spec: `internal.GetTableIdFromSrcName`. -/
def getTableIdFromSrcName (srcSchema : List (String × Table)) (name : String) : Option String :=
  (srcSchema.find? (fun p => p.2.name == name)).map (·.1)

/-- Modelled from the spec: `internal.GetColIdFromSrcName`. -/
def getColIdFromSrcName (colDefs : List (String × Column)) (name : String) : Option String :=
  (colDefs.find? (fun p => p.2.name == name)).map (·.1)

/-- Modelled from the spec: `internal.GetSrcColNameIdMap`. -/
def getSrcColNameIdMap (t : Table) : List (String × String) :=
  t.colDefs.map (fun p => (p.2.name, p.1))

/-- Modelled from the spec: `common.IntersectionOfTwoStringSlices`
(sources/common is not among the sources): the elements of the second
slice that also occur in the first. -/
def intersectionOfTwoStringSlices (a b : List String) : List String :=
  b.filter (fun x => a.contains x)

/-- Modelled from the spec: `common.PrepareValues` (sources/common is
not among the sources) aligns the tuple with the surviving column ids:
it fails when the column and value counts differ, and otherwise selects
for each surviving column id the literal of the source column carrying
that id (columns dropped during conversion are silently excluded). -/
def prepareValues (colNameIdMap : List (String × String))
    (commonColIds srcCols values : List String) : Except String (List String) :=
  if srcCols.length ≠ values.length then .error "mismatched columns and values"
  else
    .ok (commonColIds.filterMap (fun cid =>
      (colNameIdMap.find? (fun p => p.2 == cid)).bind (fun p => alistGet (srcCols.zip values) p.1)))

/-- Modelled from the spec: `ProcessDataRow` (sources/mysql/data.go is
not among the sources) converts and writes one row for the given column
ids through the data sink, counting it as a good row. -/
def processDataRow (conv : Conv) (tableId : String) (commonColIds : List String)
    (spSchemaT : SpTable) (vals : List String) : Conv :=
  let rec1 : WrittenRow := { table := tableId, cols := commonColIds, vals := vals }
  let conv := { conv with written := conv.written ++ [rec1] }
  { conv with stats := { conv.stats with goodRows := alistBump conv.stats.goodRows spSchemaT.name 1 } }

/-- One iteration of the row loop of `processInsertStmt`
(mysqldump.go:806-817): render the tuple (`getVals`; Go leaves the
values nil when it fails, and the error is only consulted through
`PrepareValues` failing), prepare it against the surviving column ids,
and either write the row or record it as bad and continue. -/
def processInsertRowStep (tableId : String) (srcSchemaT : Table) (spSchemaT : SpTable)
    (colNameIdMap : List (String × String)) (commonColIds srcCols : List String)
    (conv : Conv) (row : List ValueAst) : Conv :=
  let values := (getVals row).toOption.getD []
  match prepareValues colNameIdMap commonColIds srcCols values with
  | .error _ =>
    let conv := conv.unexpectedLog "Error while converting data"
    let conv := conv.statsAddBadRow srcSchemaT.name conv.dataModeB
    conv.collectBadRow srcSchemaT.name srcCols values
  | .ok newValues => processDataRow conv tableId commonColIds spSchemaT newValues

/-- The row loop of `processInsertStmt` (mysqldump.go:798-817): the
surviving column ids are the intersection of the target table's column
ids with the resolved source column ids, and every tuple goes through
`processInsertRowStep` with them. -/
def processInsertRows (conv : Conv) (tableId _srcTable : String) (srcSchemaT : Table)
    (srcCols srcColIds : List String) (stmt : InsertStmtAst) : Conv :=
  match stmt.lists with
  | none => logStmtError conv "InsertStmt" "cant get column values"
  | some rows =>
    let commonColIds :=
      intersectionOfTwoStringSlices (alistGetD conv.spSchema tableId {}).colIds srcColIds
    let spSchemaT := alistGetD conv.spSchema tableId {}
    let colNameIdMap := getSrcColNameIdMap srcSchemaT
    rows.foldl (processInsertRowStep tableId srcSchemaT spSchemaT colNameIdMap commonColIds srcCols)
      conv

/-- `processInsertStmt` (mysqldump.go:754). In schema mode the tuple
count is added to the table's row statistic and the statement counted
as a data statement; in data mode the columns are resolved (listed
names, or the declared table column order when none are listed),
intersected with the target column ids, and the rows are converted and
written. The nil-table and ill-typed `TableRefs` failures of
`getTableNameInsert` are collapsed into the optional table name. -/
def processInsertStmt (conv : Conv) (stmt : InsertStmtAst) : Conv :=
  match stmt.table with
  | none => logStmtError conv "InsertStmt" "source table is nil"
  | some t =>
    match getTableName t with
    | .error e => logStmtError conv "InsertStmt" ("cant get source table name: " ++ e)
    | .ok srcTable =>
      let tableId := (getTableIdFromSrcName conv.srcSchema srcTable).getD ""
      if conv.schemaModeB then
        let conv := { conv with stats := { conv.stats with
          rows := alistBump conv.stats.rows srcTable (stmt.lists.getD []).length } }
        conv.dataStatement "InsertStmt"
      else
        match alistGet conv.srcSchema tableId with
        | none =>
          let conv := conv.unexpectedLog
            ("Cant get schemas for table " ++ (alistGetD conv.srcSchema tableId {}).name)
          { conv with stats := { conv.stats with
            badRows := alistBump conv.stats.badRows srcTable (alistGetD conv.stats.rows srcTable 0) } }
        | some srcSchemaT =>
          match getCols stmt with
          | .error _ =>
            let srcColIds := srcSchemaT.colIds
            let srcCols := srcSchemaT.colIds.map (fun cid => (alistGetD srcSchemaT.colDefs cid {}).name)
            if srcColIds.length = 0 then
              let conv := conv.unexpectedLog ("Cant get columns for table " ++ srcTable)
              { conv with stats := { conv.stats with
                badRows := alistBump conv.stats.badRows srcTable (alistGetD conv.stats.rows srcTable 0) } }
            else processInsertRows conv tableId srcTable srcSchemaT srcCols srcColIds stmt
          | .ok srcCols =>
            let srcColIds :=
              srcCols.map (fun n => (getColIdFromSrcName srcSchemaT.colDefs n).getD "")
            processInsertRows conv tableId srcTable srcSchemaT srcCols srcColIds stmt

/-- `processStatement` (mysqldump.go:154): schema-mutating handlers run
only in schema mode, inserts always run, anything else is counted as
skipped; the flag tells whether an insert statement was encountered. -/
def processStatement (conv : Conv) (stmt : StmtAst) : Conv × Bool :=
  match stmt with
  | .createTable s => (if conv.schemaModeB then processCreateTable conv s else conv, false)
  | .alterTable s => (if conv.schemaModeB then processAlterTable conv s else conv, false)
  | .setStmt s => (if conv.schemaModeB then processSetStmt conv s else conv, false)
  | .insert s => (processInsertStmt conv s, true)
  | .createIndex s => (if conv.schemaModeB then processCreateIndex conv s else conv, false)
  | .other ty => (conv.skipStatement ty, false)

/-! ## mysqldump.go: the parser adapter -/

/-- `handleInsertStatement` (mysqldump.go:682): the chunk is decomposed
into one value tuple per `valuesRegexp` match; each tuple is rebuilt
into a single-row insert statement and re-parsed independently through
the external parser (`parse` yields the first parsed statement of a
chunk, or `none` on a parse error); a tuple that still fails to parse
is counted as a skipped insert statement (with an unexpected-condition
log in schema mode) and dropped. `none` is Go's `ok == false` (no
tuples found). `handleInsertStep` is one iteration of the tuple
loop. -/
def handleInsertStep (parse : String → Option StmtAst) (insertStmtPfx : String)
    (acc : Conv × List StmtAst) (value : String) : Conv × List StmtAst :=
  let c := insertStmtPfx ++ value ++ ";"
  match parse c with
  | none =>
    let conv :=
      if acc.1.schemaModeB then
        acc.1.unexpectedLog
          ("Either unsupported value is encountered or syntax is incorrect for following statement : " ++ c)
      else acc.1
    (conv.skipStatement "InsertStmt", acc.2)
  | some st => (acc.1, acc.2 ++ [st])

def handleInsertStatement (parse : String → Option StmtAst) (conv : Conv)
    (chunk insertStmtPfx : String) : Conv × Option (List StmtAst) :=
  let values := valuesRegexpFindAll chunk
  if values.length = 0 then (conv, none)
  else
    let res := values.foldl (handleInsertStep parse insertStmtPfx) (conv, [])
    (res.1, some res.2)

/-- The fatal message of `readAndParseChunk` (mysqldump.go:146),
reporting the number of unparsed trailing lines. -/
def fatalParseMsg (n : Nat) : String :=
  "Error parsing last " ++ toString n ++ " line(s) of input"

/-- The last iteration of the `readAndParseChunk` loop: the line just
read raised the reader's end-of-stream flag, so a parse is attempted
regardless of a terminator, and failure (after the repair attempt and
the reparse count) is the fatal error reporting the accumulated line
count. -/
def readAndParseFinal (parse : String → Option (List StmtAst)) (adminMatch : String → Bool)
    (handleErr : Conv → String → Conv × Option (List StmtAst)) (b : String) (l : List String)
    (conv : Conv) : Conv × Except String (String × List StmtAst) :=
  let l2 := l ++ [b]
  let chunk := String.join l2
  if adminMatch chunk then (conv, .ok (chunk, []))
  else
    match parse chunk with
    | some tree => (conv, .ok (chunk, tree))
    | none =>
      match handleErr conv chunk with
      | (conv, some newTree) => (conv, .ok (chunk, newTree))
      | (conv, none) =>
        ({ conv with stats := { conv.stats with reparsed := conv.stats.reparsed + 1 } },
          .error (fatalParseMsg l2.length))

/-- `readAndParseChunk` (mysqldump.go:102). The reader is the list of
remaining input lines (the Statement Reader of the design document:
`readLine` yields the next line and raises the end-of-stream flag with
the last one); `l` is the accumulated chunk; `parse` is the external
parser on the joined chunk; `adminMatch` is the system-generated
administrative-comment regex; `handleErr` is `handleParseError` (with
the external parse-error text folded in). A parse is attempted when the
line just read holds a `;` or the stream ended; on failure with no
heuristic applying, the reparse counter is bumped and one more line is
read; the stream ending without a successful parse is fatal. -/
def readAndParseChunk (parse : String → Option (List StmtAst)) (adminMatch : String → Bool)
    (handleErr : Conv → String → Conv × Option (List StmtAst)) :
    List String → List String → Conv → Conv × Except String (String × List StmtAst)
  | [], l, conv => readAndParseFinal parse adminMatch handleErr "" l conv
  | [b], l, conv => readAndParseFinal parse adminMatch handleErr b l conv
  | b :: rest, l, conv =>
    let l2 := l ++ [b]
    if strContainsChar b ';' then
      let chunk := String.join l2
      if adminMatch chunk then (conv, .ok (chunk, []))
      else
        match parse chunk with
        | some tree => (conv, .ok (chunk, tree))
        | none =>
          match handleErr conv chunk with
          | (conv, some newTree) => (conv, .ok (chunk, newTree))
          | (conv, none) =>
            readAndParseChunk parse adminMatch handleErr rest l2
              { conv with stats := { conv.stats with reparsed := conv.stats.reparsed + 1 } }
    else readAndParseChunk parse adminMatch handleErr rest l2 conv

/-! ## Schema-to-Spanner conversion (sources/common/toddl.go)

The converter itself is not among the sources (only its tests are); the
pieces the claims need are modelled from the design document, with the
output shapes pinned by the expectations in `toddl_test.go` and
`infoschema_test.go`. -/

/-- Modelled from the spec: the primary-key remap of the
Schema-to-Target Converter, ids unchanged, order and direction
preserved. -/
def cvtPrimaryKeys (srcKeys : List Key) : List SpIndexKey :=
  srcKeys.map (fun k => { colId := k.colId, desc := k.desc, order := k.order })

/-- Modelled from the spec: the surrogate-key synthesis step of the
Schema-to-Target Converter: a table without a primary key receives a
hidden surrogate column as its sole primary-key column. The shape (the
`synth_id` name, a string type of length 50, key order 1) follows the
expectations in `infoschema_test.go`. -/
def addSynthPrimaryKey (synthColId : String) (t : SpTable) : SpTable :=
  if t.primaryKeys.isEmpty then
    { t with
      colIds := t.colIds ++ [synthColId],
      colDefs := alistInsert t.colDefs synthColId
        { name := "synth_id", id := synthColId, tyName := "STRING", tyLen := 50 },
      primaryKeys := [{ colId := synthColId, order := 1 }] }
  else t

/-- Modelled from the spec: the per-table pass of the Schema-to-Target
Converter restricted to what the surrogate-key claim needs: column ids
carried over (the dialect type mapping abstracted as `mapCol`), the
primary key remapped, and the surrogate key synthesized when no primary
key exists. -/
def toSpannerTable (mapCol : Column → SpColumnDef) (synthColId : String) (srcTable : Table) :
    SpTable :=
  addSynthPrimaryKey synthColId
    { name := srcTable.name,
      id := srcTable.id,
      colIds := srcTable.colIds,
      colDefs := srcTable.colDefs.map (fun p => (p.1, mapCol p.2)),
      primaryKeys := cvtPrimaryKeys srcTable.primaryKeys }

/-- Modelled from the spec: `cvtIndexes` remaps a source table's
indexes into the target schema, preserving column order and each key
column's sort direction, and dropping keys whose column id did not
survive conversion (the shape is pinned by `Test_cvtIndexes` in
`toddl_test.go`). -/
def cvtIndexes (tableId : String) (srcIndexes : List Index) (spColIds : List String) :
    List SpIndex :=
  srcIndexes.map (fun idx =>
    { name := idx.name,
      tableId := tableId,
      unique := idx.unique,
      keys := (idx.keys.filter (fun k => spColIds.contains k.colId)).map
        (fun k => ({ colId := k.colId, desc := k.desc, order := k.order } : SpIndexKey)),
      id := idx.id,
      storedColumnIds := idx.storedColumnIds.filter (fun c => spColIds.contains c) })

/-! ## The batched writer (spanner/writer)

`writer.BatchWriter` is not among the sources; only its configuration
in `import_data/utils.go` is. The writer is modelled from the design
document: appending a row that would exceed the configured byte or
row-count limit flushes the in-flight batch first, and flushing resets
both counters. The byte test uses `≥` so that after an append the
accumulated size stays strictly below the limit, and the row test uses
`>` so that the count stays at most the limit (design §8's batch-limit
invariant). -/

/-- `writer.BatchWriterConfig` as built by `getBatchWriterWithConfig`
(import_data/utils.go:14): byte, row-count and retry limits (the Go
int64 fields are non-negative here). -/
structure BatchWriterConfig where
  bytesLimit : Nat := 0
  writeLimit : Nat := 0
  retryLimit : Nat := 0
deriving DecidableEq, Repr

/-- The configured limits of `getBatchWriterWithConfig`
(import_data/utils.go:14-19). -/
def importDataBatchConfig : BatchWriterConfig :=
  { bytesLimit := 100 * 1000 * 1000, writeLimit := 2000, retryLimit := 1000 }

/-- The counters of the in-flight batch: accumulated serialized byte
size, row (mutation) count, the pending row sizes, and the batches
flushed so far. -/
structure BatchState where
  bytes : Nat := 0
  rows : Nat := 0
  pending : List Nat := []
  flushed : List (List Nat) := []
deriving DecidableEq, Repr

/-- Modelled from the spec: flushing writes the pending batch (when
non-empty) and resets both counters. -/
def batchFlush (st : BatchState) : BatchState :=
  { bytes := 0, rows := 0, pending := [],
    flushed := st.flushed ++ (if st.pending.isEmpty then [] else [st.pending]) }

/-- Modelled from the spec: `BatchWriter.AddRow` appends one converted
row of serialized size `sz` to the in-flight batch; when appending
would exceed the configured byte or row-count limit, the current batch
is flushed first. -/
def batchAddRow (cfg : BatchWriterConfig) (st : BatchState) (sz : Nat) : BatchState :=
  let st := if cfg.bytesLimit ≤ st.bytes + sz ∨ cfg.writeLimit < st.rows + 1 then batchFlush st else st
  { st with bytes := st.bytes + sz, rows := st.rows + 1, pending := st.pending ++ [sz] }

/-! ## Concrete fixtures used by witnesses and counterexamples -/

/-- A parser accepting exactly the well-formed single-row insert of the
decomposition scenario. -/
def exampleParseInsert : String → Option StmtAst := fun c =>
  if c = "INSERT INTO t VALUES (1,2);" then
    some (.insert { table := some { name := "t" }, columns := none,
                    lists := some [[.val "1", .val "2"]] })
  else none

/-- A two-column source table `t`. -/
def exampleSrcTable : Table :=
  { id := "t1", name := "t", colIds := ["c1", "c2"],
    colNameIdMap := [("a", "c1"), ("b", "c2")],
    colDefs := [("c1", { name := "a", id := "c1" }), ("c2", { name := "b", id := "c2" })] }

/-- The same table with a declared single-column primary key. -/
def exampleSrcTablePk : Table := { exampleSrcTable with primaryKeys := [{ colId := "c1" }] }

/-- A schema-mode context holding `exampleSrcTable`. -/
def exampleSchemaConv : Conv := { schemaMode := true, srcSchema := [("t1", exampleSrcTable)] }

/-- A schema-mode context holding `exampleSrcTablePk`. -/
def examplePkConv : Conv := { srcSchema := [("t1", exampleSrcTablePk)] }

/-- The decomposition of the two-tuple insert chunk whose second tuple
does not parse. -/
def exampleInsertDecomposed : Conv × Option (List StmtAst) :=
  handleInsertStatement exampleParseInsert exampleSchemaConv "(1,2),(bad,3);"
    "INSERT INTO t VALUES "

/-- The context after also processing the statements the decomposition
produced, as `processMySQLDump` does. -/
def exampleInsertFinal : Conv :=
  (exampleInsertDecomposed.2.getD []).foldl (fun cv st => (processStatement cv st).1)
    exampleInsertDecomposed.1

/-- A table-level foreign-key constraint whose referenced table name is
empty. -/
def exampleBadFkConstraint : ConstraintAst :=
  { tp := .foreignKey, keys := ["a"],
    refer := { table := { name := "" }, indexPartSpecifications := ["x"] } }

/-- A Spanner table for `t` that only kept column `c1`. -/
def exampleSpTable : SpTable := { name := "t", id := "t1", colIds := ["c1"] }

/-- A data-mode context with source table `t` and its converted target
table, which dropped column `c2`. -/
def exampleDataConv : Conv :=
  { schemaMode := false, srcSchema := [("t1", exampleSrcTablePk)],
    spSchema := [("t1", exampleSpTable)] }

/-- A two-column one-row insert statement naming its columns. -/
def exampleInsertStmt : InsertStmtAst :=
  { table := some { name := "t" }, columns := some ["a", "b"],
    lists := some [[.val "1", .val "2"]] }

/-- A table-level foreign-key constraint with both referential action
clauses omitted (empty parsed action strings). -/
def exampleFkOmittedActions : ConstraintAst :=
  { tp := ConstraintTp.foreignKey, keys := ["a"],
    refer := { table := { name := "p" }, indexPartSpecifications := ["x"] } }

/-- An inline column-level REFERENCES option with both referential
action clauses omitted. -/
def exampleRefOption : ColumnOptionAst :=
  { tp := ColumnOptionTp.reference,
    refer := { table := { name := "p" }, indexPartSpecifications := ["x"] } }

/-- A column definition carrying only `exampleRefOption`. -/
def exampleRefColumnDef : ColumnDefAst :=
  { name := some "a", options := [exampleRefOption] }

/-- A source index with a descending second key column. -/
def exampleSrcIndex : Index :=
  { name := "idx1", unique := true, id := "i1",
    keys := [{ colId := "c1", desc := false, order := 1 }, { colId := "c2", desc := true, order := 2 }] }

end SpannerMigration

namespace SpannerMigration

/-! ## Helper lemmas -/

theorem alistGet_insert_self {α : Type} (m : List (String × α)) (k : String) (v : α) :
    alistGet (alistInsert m k v) k = some v := by
  induction m with
  | nil => simp [alistInsert, alistGet]
  | cons p ps ih =>
    by_cases h : p.1 == k
    · simp [alistInsert, h, alistGet]
    · simp only [alistInsert, h, Bool.false_eq_true, if_false]
      simpa [alistGet, List.find?, h] using ih

theorem alistGetD_insert_self {α : Type} (m : List (String × α)) (k : String) (v d : α) :
    alistGetD (alistInsert m k v) k d = v := by
  simp [alistGetD, alistGet_insert_self]

@[simp] theorem chars_ofChars (l : List Char) : chars (ofChars l) = l := rfl

/-! ## Claim theorems -/

/-- C1: for every source table with no declared primary key, the
converted target table has exactly one primary-key column, the
synthesized surrogate (the `synth_id` column), and the surrogate column
is added to the table's columns — no such table passes
`toSpannerTable` without it. -/
theorem c1_synthetic_pk (mapCol : Column → SpColumnDef) (synthColId : String) (srcTable : Table)
    (h : srcTable.primaryKeys = []) :
    (toSpannerTable mapCol synthColId srcTable).primaryKeys =
      [{ colId := synthColId, desc := false, order := 1 }] ∧
    (toSpannerTable mapCol synthColId srcTable).primaryKeys.length = 1 ∧
    (toSpannerTable mapCol synthColId srcTable).colIds = srcTable.colIds ++ [synthColId] ∧
    alistGet (toSpannerTable mapCol synthColId srcTable).colDefs synthColId =
      some { name := "synth_id", id := synthColId, tyName := "STRING", tyLen := 50 } := by
  unfold toSpannerTable addSynthPrimaryKey cvtPrimaryKeys
  simp [h, alistGet_insert_self]

/-- C1 witness: the surrogate-key synthesis at a concrete table without
a primary key. -/
theorem c1_synthetic_pk_witness :
    ({ exampleSrcTable with primaryKeys := [] } : Table).primaryKeys = [] ∧
    (toSpannerTable (fun _ => {}) "s1" { exampleSrcTable with primaryKeys := [] }).primaryKeys =
      [{ colId := "s1", desc := false, order := 1 }] ∧
    (toSpannerTable (fun _ => {}) "s1" { exampleSrcTable with primaryKeys := [] }).colIds =
      ["c1", "c2", "s1"] := by
  have h := c1_synthetic_pk (fun _ => {}) "s1" { exampleSrcTable with primaryKeys := [] } rfl
  exact ⟨rfl, h.1, by rw [h.2.2.1]; rfl⟩

/-- C3 counterexample: appending to the empty batch a single row whose
serialized size equals the configured byte limit flushes first (nothing
pending) and then leaves the batch at the limit, not strictly below
it. -/
theorem c3_counterexample :
    (batchAddRow importDataBatchConfig {} (100 * 1000 * 1000)).bytes =
      importDataBatchConfig.bytesLimit ∧
    ¬ ((batchAddRow importDataBatchConfig {} (100 * 1000 * 1000)).bytes <
        importDataBatchConfig.bytesLimit) := by
  constructor
  · rfl
  · decide

/-- C3 (amended): immediately after every append of a row whose
serialized size is strictly below the configured byte limit, and with a
positive configured row-count limit, the batch's accumulated byte size
is strictly below the byte limit and its row count is at most the
row-count limit (appends that would exceed a limit flush first);
flushing resets both counters. -/
theorem c3_batch_invariant (cfg : BatchWriterConfig) (st : BatchState) (sz : Nat)
    (hsz : sz < cfg.bytesLimit) (hw : 1 ≤ cfg.writeLimit) :
    (batchAddRow cfg st sz).bytes < cfg.bytesLimit ∧
    (batchAddRow cfg st sz).rows ≤ cfg.writeLimit ∧
    (batchFlush st).bytes = 0 ∧ (batchFlush st).rows = 0 := by
  unfold batchAddRow batchFlush
  by_cases hcond : cfg.bytesLimit ≤ st.bytes + sz ∨ cfg.writeLimit < st.rows + 1
  · simp only [hcond, if_true]
    refine ⟨by simpa using hsz, by simpa using hw, trivial, trivial⟩
  · simp only [hcond, if_false]
    push_neg at hcond
    exact ⟨by omega, by omega, trivial, trivial⟩

/-- C3 witness: the amended invariant at the configured limits of
`import_data/utils.go`, appending a 5-byte row to the empty batch. -/
theorem c3_batch_invariant_witness :
    (5 < importDataBatchConfig.bytesLimit ∧ 1 ≤ importDataBatchConfig.writeLimit) ∧
    ((batchAddRow importDataBatchConfig {} 5).bytes < importDataBatchConfig.bytesLimit ∧
     (batchAddRow importDataBatchConfig {} 5).rows ≤ importDataBatchConfig.writeLimit ∧
     (batchFlush {}).bytes = 0 ∧ (batchFlush {}).rows = 0) :=
  ⟨⟨by decide, by decide⟩, c3_batch_invariant importDataBatchConfig {} 5 (by decide) (by decide)⟩

/-- C6: remapping a source table's indexes into the target schema
preserves, for every index whose key columns all survive conversion,
the key column order and each key column's sort direction. -/
theorem c6_indexes_order_direction (tableId : String) (srcIndexes : List Index)
    (spColIds : List String)
    (h : ∀ idx ∈ srcIndexes, ∀ k ∈ idx.keys, spColIds.contains k.colId = true) :
    cvtIndexes tableId srcIndexes spColIds =
      srcIndexes.map (fun idx =>
        { name := idx.name, tableId := tableId, unique := idx.unique,
          keys := idx.keys.map
            (fun k => ({ colId := k.colId, desc := k.desc, order := k.order } : SpIndexKey)),
          id := idx.id,
          storedColumnIds := idx.storedColumnIds.filter (fun c => spColIds.contains c) }) := by
  unfold cvtIndexes
  refine List.map_congr_left (fun idx hidx => ?_)
  have hf : idx.keys.filter (fun k => spColIds.contains k.colId) = idx.keys :=
    List.filter_eq_self.mpr (fun k hk => h idx hidx k hk)
  rw [hf]

/-- C6 witness: a unique two-column index with a descending second
column keeps its column order and directions. -/
theorem c6_indexes_order_direction_witness :
    (∀ idx ∈ [exampleSrcIndex], ∀ k ∈ idx.keys,
      (["c1", "c2"] : List String).contains k.colId = true) ∧
    cvtIndexes "t1" [exampleSrcIndex] ["c1", "c2"] =
      [{ name := "idx1", tableId := "t1", unique := true,
         keys := [{ colId := "c1", desc := false, order := 1 },
                  { colId := "c2", desc := true, order := 2 }],
         id := "i1", storedColumnIds := [] }] := by
  refine ⟨by decide, ?_⟩
  have h := c6_indexes_order_direction "t1" [exampleSrcIndex] ["c1", "c2"] (by decide)
  rw [h]; rfl

/-- C10: in data mode, processing any non-insert statement leaves the
context's source schema map unchanged — the schema-mutating handlers
are guarded by schema mode (create-table, alter-table, set and
create-index leave the whole context untouched, any other statement
only bumps its skip counter) — and `processStatement` returns `true`
exactly for insert statements. -/
theorem c10_data_mode_frame (conv : Conv) (stmt : StmtAst) (hmode : conv.schemaMode = false) :
    ((∀ s, stmt ≠ StmtAst.insert s) → (processStatement conv stmt).1.srcSchema = conv.srcSchema) ∧
    ((processStatement conv stmt).2 = true ↔ ∃ s, stmt = StmtAst.insert s) ∧
    (∀ s, stmt = StmtAst.createTable s → (processStatement conv stmt).1 = conv) ∧
    (∀ s, stmt = StmtAst.alterTable s → (processStatement conv stmt).1 = conv) ∧
    (∀ s, stmt = StmtAst.setStmt s → (processStatement conv stmt).1 = conv) ∧
    (∀ s, stmt = StmtAst.createIndex s → (processStatement conv stmt).1 = conv) ∧
    (∀ ty, stmt = StmtAst.other ty → (processStatement conv stmt).1 = conv.skipStatement ty) := by
  cases stmt <;>
    simp [processStatement, Conv.schemaModeB, hmode, Conv.skipStatement, Conv.bumpStatement]

/-- C10 witness: a data-mode context with a drop-table statement (an
unrecognized kind). -/
theorem c10_data_mode_frame_witness :
    (({ schemaMode := false } : Conv).schemaMode = false) ∧
    (processStatement { schemaMode := false } (StmtAst.other "DropTableStmt")).1.srcSchema = [] ∧
    (processStatement { schemaMode := false } (StmtAst.other "DropTableStmt")).2 = false := by
  have h := c10_data_mode_frame { schemaMode := false } (StmtAst.other "DropTableStmt") rfl
  refine ⟨rfl, ?_, by decide⟩
  simpa using h.1 (fun s => by simp)

/-- C5: a table-level PRIMARY KEY constraint processed for a table that
already has primary-key columns replaces the existing primary key with
the table-level one (last declaration wins), records exactly the
`checkEmpty` warning as an unexpected condition, and raises no error
(the statement counters, row and bad-row statistics are untouched). -/
theorem c5_pk_overwrite (conv : Conv) (tableId : String) (constraint : ConstraintAst)
    (stmtType : String) (colMap : List (String × String))
    (htp : constraint.tp = ConstraintTp.primaryKey)
    (hprev : (alistGetD conv.srcSchema tableId {}).primaryKeys ≠ []) :
    (alistGetD (processConstraint conv tableId constraint stmtType colMap).srcSchema tableId
        {}).primaryKeys = toSchemaKeys constraint.keys colMap ∧
    (processConstraint conv tableId constraint stmtType colMap).stats.unexpecteds =
      conv.stats.unexpecteds ++
        ["Multiple primary keys found. `" ++ stmtType ++ "` statement is overwriting primary key"] ∧
    (processConstraint conv tableId constraint stmtType colMap).stats.statement =
      conv.stats.statement ∧
    (processConstraint conv tableId constraint stmtType colMap).stats.rows = conv.stats.rows ∧
    (processConstraint conv tableId constraint stmtType colMap).stats.badRows =
      conv.stats.badRows := by
  unfold processConstraint
  rw [htp]
  unfold checkEmpty
  have hlen : (alistGetD conv.srcSchema tableId {}).primaryKeys.length ≠ 0 := by
    simpa [List.length_eq_zero] using hprev
  simp [hlen, Conv.unexpectedLog, alistGetD_insert_self]

/-- C5 witness: the overwrite at a table that already declared a
column-level primary key. -/
theorem c5_pk_overwrite_witness :
    ({ tp := ConstraintTp.primaryKey, keys := ["b"] } : ConstraintAst).tp =
      ConstraintTp.primaryKey ∧
    (alistGetD examplePkConv.srcSchema "t1" {}).primaryKeys ≠ [] ∧
    (alistGetD (processConstraint examplePkConv "t1" { tp := ConstraintTp.primaryKey, keys := ["b"] }
        "CREATE TABLE" [("a", "c1"), ("b", "c2")]).srcSchema "t1" {}).primaryKeys =
      [{ colId := "c2", desc := false, order := 0 }] ∧
    (processConstraint examplePkConv "t1" { tp := ConstraintTp.primaryKey, keys := ["b"] }
        "CREATE TABLE" [("a", "c1"), ("b", "c2")]).stats.unexpecteds.length = 1 := by
  have h := c5_pk_overwrite examplePkConv "t1" { tp := ConstraintTp.primaryKey, keys := ["b"] }
    "CREATE TABLE" [("a", "c1"), ("b", "c2")] rfl (by decide)
  refine ⟨rfl, by decide, ?_, ?_⟩
  · rw [h.1]; rfl
  · rw [h.2.1]; rfl

/-- C8 counterexample: for the declared type text `a b(1)` — a
parenthesized part after a space-bearing prefix — the sub-parser does
not return the text before the parenthesis (`a b`) as the type id: the
BINARY-trim step replaces the id with the whole declared text. -/
theorem c8_counterexample :
    strContainsChar "a b(1)" '(' = true ∧
    ofChars (takeBeforeChar '(' (chars "a b(1)")) = "a b" ∧
    getTypeModsAndID {} "a b(1)" = ({}, "a b(1)", [1]) ∧
    ("a b(1)" : String) ≠ "a b" := by
  exact ⟨by decide, by decide, by decide, by decide⟩

/-- C8 (amended): for a declared column type whose text contains a
parenthesized part, the sub-parser returns the text before the first
parenthesis as the type id with the parenthesized integers as
modifiers, except that `set` and `enum` return early with an empty
modifier list (and for `set` the member count becomes the array bound
via `getArrayBounds`), and except that an id containing a space is
replaced by the whole type text with a trailing ` BINARY` trimmed. -/
theorem c8_type_mods (conv : Conv) (columnType : String) (elems : List String) (mods : List Int)
    (hpar : strContainsChar columnType '(' = true) :
    ((ofChars (takeBeforeChar '(' (chars columnType)) = "set" ∨
      ofChars (takeBeforeChar '(' (chars columnType)) = "enum") →
      getTypeModsAndID conv columnType =
        (conv, ofChars (takeBeforeChar '(' (chars columnType)), [])) ∧
    ((chars "set").isPrefixOf (chars columnType) = true →
      getArrayBounds columnType elems = [(elems.length : Int)]) ∧
    (ofChars (takeBeforeChar '(' (chars columnType)) ≠ "set" →
      ofChars (takeBeforeChar '(' (chars columnType)) ≠ "enum" →
      parseModsAll ((splitOnChar ','
          (((chars (valuesRegexpFindString columnType)).drop 1).take
            ((chars (valuesRegexpFindString columnType)).length - 2))).map ofChars) = some mods →
      strContainsChar (ofChars (takeBeforeChar '(' (chars columnType))) ' ' = false →
      getTypeModsAndID conv columnType =
        (conv, ofChars (takeBeforeChar '(' (chars columnType)), mods)) ∧
    (ofChars (takeBeforeChar '(' (chars columnType)) ≠ "set" →
      ofChars (takeBeforeChar '(' (chars columnType)) ≠ "enum" →
      parseModsAll ((splitOnChar ','
          (((chars (valuesRegexpFindString columnType)).drop 1).take
            ((chars (valuesRegexpFindString columnType)).length - 2))).map ofChars) = some mods →
      strContainsChar (ofChars (takeBeforeChar '(' (chars columnType))) ' ' = true →
      getTypeModsAndID conv columnType = (conv, trimSuffix columnType " BINARY", mods)) := by
  refine ⟨?_, ?_, ?_, ?_⟩
  · intro hse
    unfold getTypeModsAndID
    simp [hpar, hse]
  · intro hpre
    unfold getArrayBounds
    simp [hpre]
  · intro h1 h2 h3 h4
    unfold getTypeModsAndID
    rw [List.drop_one] at h3
    simp [hpar, h1, h2, h3, h4]
  · intro h1 h2 h3 h4
    unfold getTypeModsAndID
    rw [List.drop_one] at h3
    simp [hpar, h1, h2, h3, h4]

/-- C8 witness: the amended statement at `varchar(40)` (plain
modifiers) and at `set(a,b)` (members, not a length; member count as
array bound). -/
theorem c8_type_mods_witness :
    strContainsChar "varchar(40)" '(' = true ∧
    getTypeModsAndID ({} : Conv) "varchar(40)" = ({}, "varchar", [40]) ∧
    getTypeModsAndID ({} : Conv) "set(a,b)" = ({}, "set", []) ∧
    getArrayBounds "set(a,b)" ["a", "b"] = [2] := by
  refine ⟨by decide, ?_, ?_, ?_⟩
  · have h := (c8_type_mods {} "varchar(40)" [] [40] (by decide)).2.2.1
      (by decide) (by decide) (by decide) (by decide)
    simpa using h
  · have h := (c8_type_mods {} "set(a,b)" ["a", "b"] [] (by decide)).1 (by decide)
    simpa using h
  · have h := (c8_type_mods {} "set(a,b)" ["a", "b"] [] (by decide)).2.1 (by decide)
    simpa using h

/-- C9 counterexample: a table-level FOREIGN KEY constraint whose
referenced table name is empty appends the zero foreign key, whose
OnDelete and OnUpdate actions are the empty string. -/
theorem c9_counterexample :
    exampleBadFkConstraint.tp = ConstraintTp.foreignKey ∧
    (alistGetD (processConstraint examplePkConv "t1" exampleBadFkConstraint "CREATE TABLE"
        [("a", "c1")]).srcSchema "t1" {}).foreignKeys = [{}] ∧
    ({} : ForeignKey).onDelete = "" ∧ ({} : ForeignKey).onUpdate = "" := by
  exact ⟨rfl, by decide, rfl, rfl⟩

/-- C9 (amended): a foreign key built by `toForeignKeys` from a
table-level FOREIGN KEY constraint whose referenced table name resolves
(is non-empty) always carries non-empty actions — an empty parsed
action string defaults to `NO ACTION` and anything else is kept
verbatim — whereas a foreign key built from an inline column-level
REFERENCES option copies the parsed action strings without defaulting
and may therefore carry empty actions; an empty referenced table name
instead logs an unexpected condition and yields the zero foreign
key. -/
theorem c9_fk_action_defaulting (conv : Conv) (fk : ConstraintAst)
    (h : fk.refer.table.name ≠ "") :
    ((toForeignKeys conv fk).2.onDelete =
      (if fk.refer.onDelete = "" then FK_NO_ACTION else fk.refer.onDelete) ∧
     (toForeignKeys conv fk).2.onUpdate =
      (if fk.refer.onUpdate = "" then FK_NO_ACTION else fk.refer.onUpdate) ∧
     (toForeignKeys conv fk).2.onDelete ≠ "" ∧
     (toForeignKeys conv fk).2.onUpdate ≠ "") ∧
    (∀ (tableName : String) (col : ColumnDefAst) (column : Column) (elem : ColumnOptionAst),
      elem.tp = ColumnOptionTp.reference → col.options = [elem] →
      elem.refer.table.name ≠ "" →
      (updateColsByOption conv tableName col column).2.2.fk.onDelete = elem.refer.onDelete ∧
      (updateColsByOption conv tableName col column).2.2.fk.onUpdate = elem.refer.onUpdate) := by
  constructor
  · have hok : getTableName fk.refer.table =
        .ok (if fk.refer.table.schemaName ≠ "" then
              fk.refer.table.schemaName ++ "." ++ fk.refer.table.name
             else fk.refer.table.name) := by
      unfold getTableName
      simp [h]
      split <;> simp
    unfold toForeignKeys
    rw [hok]
    refine ⟨rfl, rfl, ?_, ?_⟩
    · by_cases hd : fk.refer.onDelete = "" <;> simp [hd, FK_NO_ACTION]
    · by_cases hu : fk.refer.onUpdate = "" <;> simp [hu, FK_NO_ACTION]
  · intro tableName col column elem htp hopts hname
    have hok : getTableName elem.refer.table =
        .ok (if elem.refer.table.schemaName ≠ "" then
              elem.refer.table.schemaName ++ "." ++ elem.refer.table.name
             else elem.refer.table.name) := by
      unfold getTableName
      simp [hname]
      split <;> simp
    unfold updateColsByOption
    rw [hopts]
    simp only [List.foldl_cons, List.foldl_nil, htp]
    rw [hok]
    exact ⟨rfl, rfl⟩

/-- C9 witness: a table-level constraint with both action clauses
omitted gets `NO ACTION` for both, while the inline REFERENCES option
with both omitted keeps them empty. -/
theorem c9_fk_action_defaulting_witness :
    exampleFkOmittedActions.refer.table.name ≠ "" ∧
    (toForeignKeys {} exampleFkOmittedActions).2.onDelete = "NO ACTION" ∧
    (toForeignKeys {} exampleFkOmittedActions).2.onUpdate = "NO ACTION" ∧
    (updateColsByOption {} "t" exampleRefColumnDef {}).2.2.fk.onDelete = "" := by
  have h := c9_fk_action_defaulting {} exampleFkOmittedActions (by decide)
  refine ⟨by decide, ?_, ?_, ?_⟩
  · rw [h.1.1]; rfl
  · rw [h.1.2.1]; rfl
  · exact (h.2 "t" exampleRefColumnDef {} exampleRefOption rfl rfl (by decide)).1

/-- A failing tuple re-parse: the tuple is dropped (no statement
collected) and the insert skip counter grows by one; the row and
bad-row statistics and the schema map are untouched. -/
theorem handleInsertStep_fail (parse : String → Option StmtAst) (insPfx : String)
    (acc : Conv × List StmtAst) (v : String)
    (hp : parse (insPfx ++ v ++ ";") = none) :
    (handleInsertStep parse insPfx acc v).2 = acc.2 ∧
    (handleInsertStep parse insPfx acc v).1.stats.rows = acc.1.stats.rows ∧
    (handleInsertStep parse insPfx acc v).1.stats.badRows = acc.1.stats.badRows ∧
    (handleInsertStep parse insPfx acc v).1.srcSchema = acc.1.srcSchema ∧
    (alistGetD (handleInsertStep parse insPfx acc v).1.stats.statement "InsertStmt" {}).skipCount =
      (alistGetD acc.1.stats.statement "InsertStmt" {}).skipCount + 1 := by
  unfold handleInsertStep
  simp only [hp]
  by_cases hm : acc.1.schemaModeB <;>
    simp [hm, Conv.skipStatement, Conv.bumpStatement, Conv.unexpectedLog, alistGetD_insert_self]

/-- A succeeding tuple re-parse collects the statement and changes
nothing else. -/
theorem handleInsertStep_ok (parse : String → Option StmtAst) (insPfx : String)
    (acc : Conv × List StmtAst) (v : String) (st : StmtAst)
    (hp : parse (insPfx ++ v ++ ";") = some st) :
    handleInsertStep parse insPfx acc v = (acc.1, acc.2 ++ [st]) := by
  unfold handleInsertStep
  simp only [hp]

/-- The tuple fold of `handleInsertStatement`: the collected statements
are the successful re-parses in order, each failing tuple bumps the
insert skip counter once, and the row/bad-row statistics and schema map
are untouched. -/
theorem handleInsertStep_foldl (parse : String → Option StmtAst) (insPfx : String) :
    ∀ (vs : List String) (conv : Conv) (stmts : List StmtAst),
      ((vs.foldl (handleInsertStep parse insPfx) (conv, stmts)).2 =
        stmts ++ vs.filterMap (fun v => parse (insPfx ++ v ++ ";"))) ∧
      ((alistGetD (vs.foldl (handleInsertStep parse insPfx) (conv, stmts)).1.stats.statement
          "InsertStmt" {}).skipCount =
        (alistGetD conv.stats.statement "InsertStmt" {}).skipCount +
          (vs.filter (fun v => (parse (insPfx ++ v ++ ";")).isNone)).length) ∧
      ((vs.foldl (handleInsertStep parse insPfx) (conv, stmts)).1.stats.rows = conv.stats.rows) ∧
      ((vs.foldl (handleInsertStep parse insPfx) (conv, stmts)).1.stats.badRows =
        conv.stats.badRows) ∧
      ((vs.foldl (handleInsertStep parse insPfx) (conv, stmts)).1.srcSchema = conv.srcSchema) := by
  intro vs
  induction vs with
  | nil => intro conv stmts; simp
  | cons v vs ih =>
    intro conv stmts
    simp only [List.foldl_cons]
    rcases hp : parse (insPfx ++ v ++ ";") with _ | st
    · have hstep := handleInsertStep_fail parse insPfx (conv, stmts) v hp
      have hpair : handleInsertStep parse insPfx (conv, stmts) v =
          ((handleInsertStep parse insPfx (conv, stmts) v).1,
           (handleInsertStep parse insPfx (conv, stmts) v).2) := rfl
      rw [hpair, hstep.1]
      have ihx := ih (handleInsertStep parse insPfx (conv, stmts) v).1 stmts
      refine ⟨?_, ?_, ?_, ?_, ?_⟩
      · rw [ihx.1]; simp [hp]
      · rw [ihx.2.1, hstep.2.2.2.2]; simp [hp]; omega
      · rw [ihx.2.2.1, hstep.2.1]
      · rw [ihx.2.2.2.1, hstep.2.2.1]
      · rw [ihx.2.2.2.2, hstep.2.2.2.1]
    · rw [handleInsertStep_ok parse insPfx (conv, stmts) v st hp]
      have ihx := ih conv (stmts ++ [st])
      refine ⟨?_, ?_, ?_, ?_, ?_⟩
      · rw [ihx.1]; simp [hp]
      · rw [ihx.2.1]; simp [hp]
      · exact ihx.2.2.1
      · exact ihx.2.2.2.1
      · exact ihx.2.2.2.2

/-- The successful and failing re-parses of a tuple list partition
it. -/
theorem length_filterMap_add_none {α β : Type} (f : α → Option β) :
    ∀ vs : List α,
      (vs.filterMap f).length + (vs.filter (fun v => (f v).isNone)).length = vs.length := by
  intro vs
  induction vs with
  | nil => simp
  | cons v vs ih => rcases h : f v with _ | b <;> simp [h] <;> omega

/-- C2 counterexample: for the insert chunk of two tuples whose second
tuple does not parse, the decomposition yields one single-row
statement; after processing it (schema mode, where the row statistic is
kept), the statement's row count is 1 — not the claimed n = 2 — and the
bad-row count is 0 — not the claimed k = 1; the failing tuple is
recorded as one skipped insert statement instead. -/
theorem c2_counterexample :
    valuesRegexpFindAll "(1,2),(bad,3);" = ["(1,2)", "(bad,3)"] ∧
    (exampleInsertDecomposed.2.getD []).length = 1 ∧
    alistGetD exampleInsertFinal.stats.rows "t" 0 = 1 ∧
    alistGetD exampleInsertFinal.stats.badRows "t" 0 = 0 ∧
    (alistGetD exampleInsertFinal.stats.statement "InsertStmt" {}).skipCount = 1 ∧
    ¬ (alistGetD exampleInsertFinal.stats.rows "t" 0 = 2 ∧
       alistGetD exampleInsertFinal.stats.badRows "t" 0 = 1) := by
  refine ⟨by decide, by decide, by decide, by decide, by decide, by decide⟩

/-- C2 (amended): a multi-row insert chunk that fails to parse as a
whole is decomposed into one single-row insert statement per value
tuple and each is re-parsed independently; every tuple that still fails
to parse is dropped and recorded as a skipped insert statement — not as
a bad row — so for an insert of n tuples with k unparsable ones the
adapter returns the n − k parsable tuples as single-row statements, the
insert skip counter grows by k, and the row and bad-row statistics are
unchanged by the adapter. -/
theorem c2_decompose_accounting (parse : String → Option StmtAst) (conv : Conv)
    (chunk insPfx : String) (h : valuesRegexpFindAll chunk ≠ []) :
    ((handleInsertStatement parse conv chunk insPfx).2 =
      some ((valuesRegexpFindAll chunk).filterMap (fun v => parse (insPfx ++ v ++ ";")))) ∧
    (((handleInsertStatement parse conv chunk insPfx).2.getD []).length =
      (valuesRegexpFindAll chunk).length -
        ((valuesRegexpFindAll chunk).filter
          (fun v => (parse (insPfx ++ v ++ ";")).isNone)).length) ∧
    ((alistGetD (handleInsertStatement parse conv chunk insPfx).1.stats.statement "InsertStmt"
        {}).skipCount =
      (alistGetD conv.stats.statement "InsertStmt" {}).skipCount +
        ((valuesRegexpFindAll chunk).filter
          (fun v => (parse (insPfx ++ v ++ ";")).isNone)).length) ∧
    ((handleInsertStatement parse conv chunk insPfx).1.stats.rows = conv.stats.rows) ∧
    ((handleInsertStatement parse conv chunk insPfx).1.stats.badRows = conv.stats.badRows) := by
  have hlen : ¬ (valuesRegexpFindAll chunk).length = 0 := by
    simpa [List.length_eq_zero] using h
  have hfold := handleInsertStep_foldl parse insPfx (valuesRegexpFindAll chunk) conv []
  have hpart := length_filterMap_add_none (fun v => parse (insPfx ++ v ++ ";"))
    (valuesRegexpFindAll chunk)
  unfold handleInsertStatement
  simp only [hlen, if_false]
  refine ⟨?_, ?_, ?_, ?_, ?_⟩
  · rw [hfold.1]; simp
  · rw [hfold.1]; simp; omega
  · exact hfold.2.1
  · exact hfold.2.2.1
  · exact hfold.2.2.2.1

/-- C2 witness: the amended accounting at the two-tuple chunk with one
unparsable tuple. -/
theorem c2_decompose_accounting_witness :
    valuesRegexpFindAll "(1,2),(bad,3);" ≠ [] ∧
    (exampleInsertDecomposed.2.getD []).length = 2 - 1 ∧
    (alistGetD exampleInsertDecomposed.1.stats.statement "InsertStmt" {}).skipCount = 1 ∧
    exampleInsertDecomposed.1.stats.badRows = exampleSchemaConv.stats.badRows := by
  have h := c2_decompose_accounting exampleParseInsert exampleSchemaConv "(1,2),(bad,3);"
    "INSERT INTO t VALUES " (by decide)
  refine ⟨by decide, by decide, ?_, h.2.2.2.1⟩
  have h2 := h.2.2.1
  simpa using h2

/-- The final loop iteration with an always-failing parse and no
applicable heuristic ends in the fatal error carrying the accumulated
line count. -/
theorem readAndParseFinal_fail (parse : String → Option (List StmtAst))
    (adminMatch : String → Bool) (handleErr : Conv → String → Conv × Option (List StmtAst))
    (hp : ∀ chunk, parse chunk = none) (ha : ∀ chunk, adminMatch chunk = false)
    (hh : ∀ conv chunk, (handleErr conv chunk).2 = none) (b : String) (l : List String)
    (conv : Conv) :
    (readAndParseFinal parse adminMatch handleErr b l conv).2 =
      .error (fatalParseMsg (l ++ [b]).length) := by
  unfold readAndParseFinal
  rcases hhe : handleErr conv (String.join (l ++ [b])) with ⟨cv, s2⟩
  have h2 := hh conv (String.join (l ++ [b]))
  rw [hhe] at h2
  subst h2
  simp [ha, hp, hhe]

/-- With an always-failing parse and no applicable heuristic, the loop
reaches end-of-stream and fails with the accumulated line count. -/
theorem readAndParseChunk_all_fail (parse : String → Option (List StmtAst))
    (adminMatch : String → Bool) (handleErr : Conv → String → Conv × Option (List StmtAst))
    (hp : ∀ chunk, parse chunk = none) (ha : ∀ chunk, adminMatch chunk = false)
    (hh : ∀ conv chunk, (handleErr conv chunk).2 = none) :
    ∀ (lines l : List String) (conv : Conv), lines ≠ [] →
      (readAndParseChunk parse adminMatch handleErr lines l conv).2 =
        .error (fatalParseMsg (l.length + lines.length)) := by
  intro lines
  induction lines with
  | nil => intro l conv hne; exact absurd rfl hne
  | cons b rest ih =>
    intro l conv _
    cases rest with
    | nil =>
      simp only [readAndParseChunk]
      rw [readAndParseFinal_fail parse adminMatch handleErr hp ha hh b l conv]
      simp
    | cons b2 rest2 =>
      simp only [readAndParseChunk]
      by_cases hb : strContainsChar b ';'
      · simp only [hb, if_true]
        rcases hhe : handleErr conv (String.join (l ++ [b])) with ⟨cv, s2⟩
        have h2 := hh conv (String.join (l ++ [b]))
        rw [hhe] at h2
        subst h2
        simp only [ha, hp, Bool.false_eq_true, if_false, hhe]
        rw [ih (l ++ [b]) _ (by simp)]
        simp [Nat.add_assoc, Nat.add_comm]
      · simp only [hb, Bool.false_eq_true, if_false]
        rw [ih (l ++ [b]) conv (by simp)]
        simp [Nat.add_assoc, Nat.add_comm]

/-- C4: when parsing a chunk fails and no repair heuristic applies, the
loop bumps the reparse counter, reads one more line and retries; if
end-of-stream is reached without a successful parse, processing fails
with the fatal error reporting the number of unparsed trailing
lines. -/
theorem c4_unparsable_trailing_chunk (parse : String → Option (List StmtAst))
    (adminMatch : String → Bool) (handleErr : Conv → String → Conv × Option (List StmtAst))
    (hp : ∀ chunk, parse chunk = none) (ha : ∀ chunk, adminMatch chunk = false)
    (hh : ∀ conv chunk, (handleErr conv chunk).2 = none) :
    (∀ (b b2 : String) (rest2 l : List String) (conv : Conv), strContainsChar b ';' = true →
      readAndParseChunk parse adminMatch handleErr (b :: b2 :: rest2) l conv =
        readAndParseChunk parse adminMatch handleErr (b2 :: rest2) (l ++ [b])
          (let cv := (handleErr conv (String.join (l ++ [b]))).1
           { cv with stats := { cv.stats with reparsed := cv.stats.reparsed + 1 } })) ∧
    (∀ (lines l : List String) (conv : Conv), lines ≠ [] →
      (readAndParseChunk parse adminMatch handleErr lines l conv).2 =
        .error (fatalParseMsg (l.length + lines.length))) := by
  constructor
  · intro b b2 rest2 l conv hb
    simp only [readAndParseChunk, hb, if_true]
    rcases hhe : handleErr conv (String.join (l ++ [b])) with ⟨cv, s2⟩
    have h2 := hh conv (String.join (l ++ [b]))
    rw [hhe] at h2
    subst h2
    simp [ha, hp, hhe]
  · exact readAndParseChunk_all_fail parse adminMatch handleErr hp ha hh

/-- C4 witness: a two-line stream whose only terminator-bearing chunk
never parses is fatal, reporting both trailing lines. -/
theorem c4_unparsable_trailing_chunk_witness :
    ((fun _ : String => (none : Option (List StmtAst))) "x" = none) ∧
    ((["a;", "b"] : List String) ≠ []) ∧
    (readAndParseChunk (fun _ => none) (fun _ => false) (fun cv _ => (cv, none))
        ["a;", "b"] [] {}).2 = .error (fatalParseMsg 2) := by
  refine ⟨rfl, by decide, ?_⟩
  have h := (c4_unparsable_trailing_chunk (fun _ => none) (fun _ => false)
    (fun cv _ => (cv, none)) (fun _ => rfl) (fun _ => rfl) (fun _ _ => rfl)).2
    ["a;", "b"] [] {} (by decide)
  simpa using h

@[simp] theorem unexpectedLog_written (conv : Conv) (msg : String) :
    (conv.unexpectedLog msg).written = conv.written := rfl

@[simp] theorem collectBadRow_written (conv : Conv) (n : String) (cols vals : List String) :
    (conv.collectBadRow n cols vals).written = conv.written := rfl

@[simp] theorem statsAddBadRow_written (conv : Conv) (n : String) (b : Bool) :
    (conv.statsAddBadRow n b).written = conv.written := by
  unfold Conv.statsAddBadRow
  split <;> rfl

@[simp] theorem logStmtError_written (conv : Conv) (ty e : String) :
    (logStmtError conv ty e).written = conv.written := rfl

/-- One row-loop iteration only ever appends rows carrying the
surviving column ids to the data sink. -/
theorem processInsertRowStep_written (tableId : String) (srcSchemaT : Table) (spSchemaT : SpTable)
    (colNameIdMap : List (String × String)) (commonColIds srcCols : List String) (conv : Conv)
    (row : List ValueAst) :
    ∀ r ∈ (processInsertRowStep tableId srcSchemaT spSchemaT colNameIdMap commonColIds srcCols
        conv row).written, r ∈ conv.written ∨ r.cols = commonColIds := by
  intro r hr
  unfold processInsertRowStep at hr
  rcases hpv : prepareValues colNameIdMap commonColIds srcCols
      ((getVals row).toOption.getD []) with e | nv
  · simp only [hpv] at hr
    simp only [collectBadRow_written, statsAddBadRow_written, unexpectedLog_written] at hr
    exact Or.inl hr
  · simp only [hpv] at hr
    unfold processDataRow at hr
    simp only [] at hr
    rcases List.mem_append.mp hr with h | h
    · exact Or.inl h
    · right
      have : r = { table := tableId, cols := commonColIds, vals := nv } := by
        simpa using h
      rw [this]

/-- The row loop only ever appends rows carrying the surviving column
ids to the data sink. -/
theorem processInsertRowStep_foldl_written (tableId : String) (srcSchemaT : Table)
    (spSchemaT : SpTable) (colNameIdMap : List (String × String))
    (commonColIds srcCols : List String) :
    ∀ (rows : List (List ValueAst)) (conv : Conv),
      ∀ r ∈ (rows.foldl (processInsertRowStep tableId srcSchemaT spSchemaT colNameIdMap
          commonColIds srcCols) conv).written, r ∈ conv.written ∨ r.cols = commonColIds := by
  intro rows
  induction rows with
  | nil => intro conv r hr; exact Or.inl hr
  | cons row rows ih =>
    intro conv r hr
    simp only [List.foldl_cons] at hr
    rcases ih _ r hr with h | h
    · exact processInsertRowStep_written tableId srcSchemaT spSchemaT colNameIdMap commonColIds
        srcCols conv row r h
    · exact Or.inr h

/-- C7: in data mode, for a parsed insert statement whose table
resolves, the columns written are exactly the surviving column ids —
the intersection of the target table's column ids with the resolved
source column ids, where the listed column names are resolved to ids
when present and the declared table column order is used otherwise —
so columns dropped during conversion are silently excluded: every row
the statement writes carries those surviving column ids. -/
theorem c7_insert_surviving_columns (conv : Conv) (stmt : InsertStmtAst) (t : TableNameAst)
    (srcTable tableId : String) (srcSchemaT : Table)
    (hmode : conv.schemaMode = false)
    (ht : stmt.table = some t)
    (hname : getTableName t = .ok srcTable)
    (hid : getTableIdFromSrcName conv.srcSchema srcTable = some tableId)
    (hschema : alistGet conv.srcSchema tableId = some srcSchemaT) :
    (∀ names, stmt.columns = some names →
      ∀ r ∈ (processInsertStmt conv stmt).written, r ∈ conv.written ∨
        r.cols = intersectionOfTwoStringSlices (alistGetD conv.spSchema tableId {}).colIds
          (names.map (fun n => (getColIdFromSrcName srcSchemaT.colDefs n).getD ""))) ∧
    (stmt.columns = none →
      ∀ r ∈ (processInsertStmt conv stmt).written, r ∈ conv.written ∨
        r.cols = intersectionOfTwoStringSlices (alistGetD conv.spSchema tableId {}).colIds
          srcSchemaT.colIds) := by
  have hmodeB : conv.schemaModeB = false := by simp [Conv.schemaModeB, hmode]
  constructor
  · intro names hcols r hr
    unfold processInsertStmt at hr
    rw [ht] at hr
    simp only [hname, hid, Option.getD_some, hmodeB, Bool.false_eq_true, if_false, hschema] at hr
    unfold getCols at hr
    rw [hcols] at hr
    simp only [] at hr
    unfold processInsertRows at hr
    rcases hl : stmt.lists with _ | rows
    · rw [hl] at hr
      simp only [logStmtError_written] at hr
      exact Or.inl hr
    · rw [hl] at hr
      simp only [] at hr
      exact processInsertRowStep_foldl_written tableId srcSchemaT _ _ _ _ rows conv r hr
  · intro hcols r hr
    unfold processInsertStmt at hr
    rw [ht] at hr
    simp only [hname, hid, Option.getD_some, hmodeB, Bool.false_eq_true, if_false, hschema] at hr
    unfold getCols at hr
    rw [hcols] at hr
    simp only [] at hr
    by_cases hempty : srcSchemaT.colIds.length = 0
    · simp only [hempty, if_true] at hr
      simp only [unexpectedLog_written] at hr
      left
      exact hr
    · simp only [hempty, Bool.false_eq_true, if_false] at hr
      unfold processInsertRows at hr
      rcases hl : stmt.lists with _ | rows
      · rw [hl] at hr
        simp only [logStmtError_written] at hr
        exact Or.inl hr
      · rw [hl] at hr
        simp only [] at hr
        exact processInsertRowStep_foldl_written tableId srcSchemaT _ _ _ _ rows conv r hr

/-- C7 witness: an insert naming columns `a, b` into a table whose
conversion kept only `a`s column id writes only that surviving
column. -/
theorem c7_insert_surviving_columns_witness :
    exampleDataConv.schemaMode = false ∧
    (processInsertStmt exampleDataConv exampleInsertStmt).written =
      [{ table := "t1", cols := ["c1"], vals := ["1"] }] ∧
    (∀ r ∈ (processInsertStmt exampleDataConv exampleInsertStmt).written,
      r ∈ exampleDataConv.written ∨
        r.cols = intersectionOfTwoStringSlices (alistGetD exampleDataConv.spSchema "t1" {}).colIds
          (["a", "b"].map (fun n => (getColIdFromSrcName exampleSrcTablePk.colDefs n).getD ""))) := by
  refine ⟨rfl, by decide, ?_⟩
  exact (c7_insert_surviving_columns exampleDataConv exampleInsertStmt { name := "t" } "t" "t1"
    exampleSrcTablePk rfl rfl rfl (by decide) (by decide)).1 ["a", "b"] rfl

end SpannerMigration
